import Mathlib

/-!
Verification of the `webvtt_py` WebVTT validation module (`webvtt.py`).

The Python source is shallowly embedded here:

* Python strings are `List Char` (abbreviated `Str`); the `Struple` index
  idiom (`line[pos]` returning `None` when out of bounds, `pos` only ever
  moving forward) is modelled by keeping the *remaining suffix* of the line:
  `line[pos]` is the head of the suffix, `pos += 1` drops the head and
  `line[pos:]` is the suffix itself.
* Python numbers are idealized as exact rationals (`ℚ`); `int(...)` over a
  digit string is `digitsVal`.
* Host-level exceptions that the Python code can actually raise
  (IndexError on `''[0]`, KeyError on a missing dict key, TypeError on
  `str.find(..., start=1)`, ValueError on `int`/`chr` of bad input) are
  modelled with `Except PyErr`; a raised exception aborts the whole
  `parse` call exactly as in Python.
* Error sinks: the Python sub-parsers report through an `err` closure that
  appends `{line: line_pos, message}` to the caller's list; since `line_pos`
  is constant while a sub-parser runs, each embedded sub-parser returns its
  bare message list and the document loop attaches the current line number.
-/
/- The rational-number operations of core Lean are marked irreducible,
which blocks definitional evaluation (`rfl`/`decide`) of cue timings
computed by the embedded parser; they are ordinary gcd-normalising
definitions, so restoring reducibility is semantically neutral. -/
set_option allowUnsafeReducibility true in
attribute [semireducible] Rat.add Rat.mul Rat.div Rat.sub Rat.neg Rat.inv
abbrev Str := List Char

/-- Shorthand for turning a Lean string literal into the `List Char`
representation used throughout the embedding. -/
def lit (s : String) : Str := s.data

/-- Host-level Python exceptions reachable from `WebVTTParser.parse`. -/
inductive PyErr where
  | indexError
  | keyError
  | typeError
  | valueError
deriving DecidableEq, Repr

namespace WebVTTCueTimingsAndSettingsParser

/-- `self.SPACE = (' ', '\t')` from the source. -/
def SPACE : Str := [' ', '\t']

/-- `self.DIGITS = '0123456789'` from the source. -/
def DIGITS : Str := lit "0123456789"

/-- `skip(pattern)`: advance the cursor while the current character is in
`pattern`; on the suffix representation this drops matching heads. -/
def skipChars (pat : Str) : Str → Str
  | [] => []
  | c :: rest => if pat.elem c then skipChars pat rest else c :: rest

/-- `collect(pattern)`: accumulate characters while they are in `pattern`,
returning the collected run and the remaining suffix. -/
def collectChars (pat : Str) : Str → Str × Str
  | [] => ([], [])
  | c :: rest =>
    if pat.elem c then
      let r := collectChars pat rest
      (c :: r.1, r.2)
    else ([], c :: rest)

/-- Value of a single ASCII digit character, as `int` computes it. -/
def digitVal (c : Char) : Nat := c.toNat - 48

/-- Python `int(s)` restricted to the all-digit strings produced by
`collect(self.DIGITS)` (the only strings the timestamp scanner converts). -/
def digitsVal (s : Str) : Nat := s.foldl (fun a c => 10 * a + digitVal c) 0

/-- Shared tail of `timestamp()` (source steps 13-17): after the two-digit
groups are fixed, expect `.`, exactly three millisecond digits, check the
59-bounds and build `int(val1)*60*60 + int(val2)*60 + int(val3) +
int(val4)/1000`. `val1`, `val2`, `val3` arrive already swapped in the
minutes-only case, mirroring the source's reassignment. -/
def tsTail (val1 val2 val3 : Str) (rem : Str) : List String × Option ℚ × Str :=
  match rem with
  | '.' :: r =>
    let c4 := collectChars DIGITS r
    if c4.1.length ≠ 3 then (["Milliseconds must be given in three digits."], none, c4.2)
    else if digitsVal val2 > 59 then (["You cannot have more than 59 minutes."], none, c4.2)
    else if digitsVal val3 > 59 then (["You cannot have more than 59 seconds."], none, c4.2)
    else ([], some ((digitsVal val1 : ℚ) * 60 * 60 + (digitsVal val2 : ℚ) * 60 +
            (digitsVal val3 : ℚ) + (digitsVal c4.1 : ℚ) / 1000), c4.2)
  | _ => (["No decimal separator (\".\") found."], none, rem)

/-- `timestamp()` from the source, on the remaining-suffix representation.
Returns the emitted error messages, the optional seconds value and the
remaining suffix after the scan. `units == 'hours'` is the Boolean
`hours`. -/
def timestamp (rem : Str) : List String × Option ℚ × Str :=
  match rem with
  | [] => (["No timestamp found."], none, rem)
  | c :: _ =>
    if ¬ DIGITS.elem c then
      (["Timestamp must start with a character in the range 0-9."], none, rem)
    else
      let c1 := collectChars DIGITS rem
      let val1 := c1.1
      let hours : Bool := val1.length > 2 || digitsVal val1 > 59
      match c1.2 with
      | ':' :: r2 =>
        let c2 := collectChars DIGITS r2
        let val2 := c2.1
        if val2.length ≠ 2 then (["Must be exactly two digits."], none, c2.2)
        else
          if hours || c2.2.head? = some ':' then
            match c2.2 with
            | ':' :: r4 =>
              let c3 := collectChars DIGITS r4
              if c3.1.length ≠ 2 then (["Must be exactly two digits."], none, c3.2)
              else tsTail val1 val2 c3.1 c3.2
            | r3 => (["No seconds found or minutes is greater than 59."], none, r3)
          else
            if val1.length ≠ 2 then (["Must be exactly two digits."], none, c2.2)
            else tsTail (lit "0") val1 val2 c2.2
      | r1 => (["No time unit separator found."], none, r1)

/-- `parse_timestamp()`: a timestamp that must consume the whole input. -/
def parse_timestamp (rem : Str) : List String × Option ℚ :=
  let t := timestamp rem
  match t.2.2 with
  | [] => (t.1, t.2.1)
  | _ => (t.1 ++ ["Timestamp must not have trailing characters."], none)

end WebVTTCueTimingsAndSettingsParser

namespace WebVTTCueTimingsAndSettingsParser

/-- Rendering of a two-digit group `0 ≤ n ≤ 99` (e.g. minutes, seconds). -/
def twoDig (n : Nat) : Str := [Nat.digitChar (n / 10), Nat.digitChar (n % 10)]

/-- Rendering of a three-digit millisecond group `0 ≤ n ≤ 999`. -/
def threeDig (n : Nat) : Str :=
  [Nat.digitChar (n / 100), Nat.digitChar (n / 10 % 10), Nat.digitChar (n % 10)]

end WebVTTCueTimingsAndSettingsParser

namespace WebVTTCueTimingsAndSettingsParser

/-- A string made only of the characters of `self.DIGITS`. -/
def digitRun (s : Str) : Prop := ∀ c ∈ s, DIGITS.elem c = true

instance (s : Str) : Decidable (digitRun s) :=
  inferInstanceAs (Decidable (∀ c ∈ s, DIGITS.elem c = true))

/-- `timestamp()` failed: exactly one error message was reported and no
seconds value is returned. -/
def timestampFails (inp : Str) : Prop :=
  (timestamp inp).1.length = 1 ∧ (timestamp inp).2.1 = none

end WebVTTCueTimingsAndSettingsParser

/-- One node of the cue-text markup tree, after `remove_cycles` has removed
the `parent` back-references: a text leaf, a timestamp leaf, or an object
node (`value` is the annotation key, present only on `v`/`lang` nodes,
mirroring the dict key that the source only sets for those tags). -/
inductive Node where
  | text (value : Str)
  | timestamp (value : ℚ)
  | object (name : Str) (classes : List Str) (value : Option Str) (children : List Node)

/-- A dynamically typed cue field that Python initializes with a string
default (e.g. `'auto'`) and later overwrites with a float. -/
inductive PyVal where
  | str (s : Str)
  | num (q : ℚ)
deriving DecidableEq, Repr

/-- The `Cue` dataclass with its field defaults. `tree` is `None` until
cue-text processing stores the parsed markup tree (the source annotates the
field as `bool` but stores the tree dict; here it is the root's child
list). -/
structure Cue where
  id : Str := []
  start_time : ℚ := 0
  end_time : ℚ := 0
  pause_on_exit : Bool := false
  direction : Str := lit "horizontal"
  snap_to_lines : Bool := true
  line_position : PyVal := .str (lit "auto")
  line_align : Str := lit "start"
  text_position : PyVal := .str (lit "auto")
  position_align : Str := lit "auto"
  size : ℚ := 100
  alignment : Str := lit "center"
  text : Str := []
  tree : Option (List Node) := none
  non_serializable : Bool := false

/-- Python `str.isspace` characters for the ASCII range (the only ones the
splitting in this module can meet). -/
def pyIsSpace (c : Char) : Bool :=
  c = ' ' || c = '\t' || c = '\n' || c = '\x0b' || c = '\x0c' || c = '\r'

/-- Python `str.split()` with no separator: split on whitespace runs,
producing no empty tokens. -/
def pySplitAcc (acc : Str) : Str → List Str
  | [] => if acc = [] then [] else [acc.reverse]
  | c :: rest =>
    if pyIsSpace c then
      if acc = [] then pySplitAcc [] rest else acc.reverse :: pySplitAcc [] rest
    else pySplitAcc (c :: acc) rest

/-- Python `str.split()` (whitespace mode). -/
def pySplit (s : Str) : List Str := pySplitAcc [] s

/-- Python `str.split(sep)` for a one-character separator. -/
def splitOnChar (sep : Char) : Str → List Str
  | [] => [[]]
  | c :: rest =>
    if c = sep then [] :: splitOnChar sep rest
    else
      match splitOnChar sep rest with
      | l :: ls => (c :: l) :: ls
      | [] => [[c]]

/-- Python `hay.find(needle)` (first index or `-1`), auxiliary walker. -/
def pyFindAux (needle : Str) : Str → Nat → Int
  | [], i => if needle.isPrefixOf [] then (i : Int) else -1
  | c :: t, i => if needle.isPrefixOf (c :: t) then (i : Int) else pyFindAux needle t (i + 1)

/-- Python `hay.find(needle)`. -/
def pyFind (hay needle : Str) : Int := pyFindAux needle hay 0

/-- Python `x in hay` for strings (substring test), as used for `','  in value`
and `lines[pos].find('-->') != -1`. -/
def pyHasSub (hay needle : Str) : Bool := pyFind hay needle ≠ -1

/-- Strip ASCII whitespace from both ends (prefix of what `float()`/`int()`
accept around a literal). -/
def pyStrip (s : Str) : Str :=
  ((s.dropWhile pyIsSpace).reverse.dropWhile pyIsSpace).reverse

/-- Lower-case one ASCII letter. -/
def lowerAscii (c : Char) : Char :=
  if 'A' ≤ c ∧ c ≤ 'Z' then Char.ofNat (c.toNat + 32) else c

/-- Drop one optional leading sign. -/
def dropSign : Str → Str
  | '+' :: r => r
  | '-' :: r => r
  | s => s

/-- Exponent part of a float literal: empty, or `e`/`E`, optional sign, at
least one digit. -/
def floatExpOk : Str → Bool
  | [] => true
  | 'e' :: r => (dropSign r ≠ []) && (dropSign r).all (·.isDigit)
  | 'E' :: r => (dropSign r ≠ []) && (dropSign r).all (·.isDigit)
  | _ => false

/-- Finite-float body: `digits [. digits] | . digits`, optional exponent. -/
def floatBodyOk (s : Str) : Bool :=
  let ip := s.takeWhile (·.isDigit)
  let r1 := s.dropWhile (·.isDigit)
  match r1 with
  | '.' :: r2 =>
    let fp := r2.takeWhile (·.isDigit)
    (ip ≠ [] || fp ≠ []) && floatExpOk (r2.dropWhile (·.isDigit))
  | _ => (ip ≠ []) && floatExpOk r1

/-- `is_number(value)` from the source: `float(value)` succeeds and the
result is neither NaN nor infinite. Models CPython acceptance of ASCII
float literals: optional surrounding whitespace, optional sign, then a
finite numeric body, or an `inf`/`infinity`/`nan` form (those are rejected
by the `isnan`/`isinf` test). Digit-group underscores, non-ASCII digits and
exponent overflow to infinity are not modelled; no input in this
development uses them. -/
def is_number (s : Str) : Bool :=
  let b := dropSign (pyStrip s)
  let lb := b.map lowerAscii
  if lb = lit "inf" || lb = lit "infinity" || lb = lit "nan" then false
  else floatBodyOk b

/-- Python `int(s)` on a string: optional surrounding whitespace, optional
sign, at least one digit; otherwise a ValueError (digit-group underscores
are not modelled; no input here uses them). -/
def pyIntStr (s : Str) : Except PyErr Int :=
  let b := pyStrip s
  let sgn : Int := if b.head? = some '-' then -1 else 1
  let r := dropSign b
  if r ≠ [] ∧ r.all (·.isDigit) then
    .ok (sgn * (WebVTTCueTimingsAndSettingsParser.digitsVal r : Int))
  else .error .valueError

/-- Value of a float literal accepted by `float()` (finite forms): used for
`float(num_val)` in the settings code. Inputs that `float` would reject
never reach this function. -/
def pyFloatVal (s : Str) : ℚ :=
  let b := pyStrip s
  let sgn : ℚ := if b.head? = some '-' then -1 else 1
  let r := dropSign b
  let ip := r.takeWhile (·.isDigit)
  let r1 := r.dropWhile (·.isDigit)
  let fp := match r1 with
    | '.' :: r2 => r2.takeWhile (·.isDigit)
    | _ => []
  let r2 := match r1 with
    | '.' :: r2 => r2.dropWhile (·.isDigit)
    | _ => r1
  let e : Int := match r2 with
    | 'e' :: rr => (match rr with
      | '-' :: d => -(WebVTTCueTimingsAndSettingsParser.digitsVal d : Int)
      | '+' :: d => (WebVTTCueTimingsAndSettingsParser.digitsVal d : Int)
      | d => (WebVTTCueTimingsAndSettingsParser.digitsVal d : Int))
    | 'E' :: rr => (match rr with
      | '-' :: d => -(WebVTTCueTimingsAndSettingsParser.digitsVal d : Int)
      | '+' :: d => (WebVTTCueTimingsAndSettingsParser.digitsVal d : Int)
      | d => (WebVTTCueTimingsAndSettingsParser.digitsVal d : Int))
    | _ => 0
  sgn * ((WebVTTCueTimingsAndSettingsParser.digitsVal ip : ℚ) +
    (WebVTTCueTimingsAndSettingsParser.digitsVal fp : ℚ) / ((10 : ℚ) ^ fp.length)) * (10 : ℚ) ^ e

namespace WebVTTCueTimingsAndSettingsParser

/-- `align_values` from the `align` branch of `parse_settings`. -/
def align_values : List Str := [lit "start", lit "center", lit "end", lit "left", lit "right"]

/-- `re.match(r'^[-\d](\d*)(\.\d+)?%?$', value)` from the `line` branch, as
a Boolean: `-` or a digit, a digit run, optionally `.` plus at least one
digit, optionally a final `%`. Python `\d` also matches non-ASCII decimal
digits; `Char.isDigit` (ASCII) is used here, the difference is not
exercised by any input in this development. -/
def lineNumGrammar : Str → Bool
  | [] => false
  | c :: rest =>
    (c = '-' || c.isDigit) &&
    (let r1 := rest.dropWhile (·.isDigit)
     match r1 with
     | '.' :: r =>
       (r.takeWhile (·.isDigit) ≠ []) &&
       (let r3 := r.dropWhile (·.isDigit)
        r3 = [] || r3 = ['%'])
     | r1x => r1x = [] || r1x = ['%'])

/-- One iteration of the `for i in range(len(settings))` loop of
`parse_settings`, threading the `seen` list, accumulated error messages and
the cue being mutated.

The `line` branch is modelled up to its unconditional
`value.find('-', start=1)` statement: CPython `str.find` accepts no keyword
arguments, so reaching it raises `TypeError`. Everything after it in that
branch (the `%` position checks, the negative-percentage check, the
`snap_to_lines`/`line_position` assignment and the
`str(float(num_val) != num_val)` round-trip flag) is dead code behind the
raise and is therefore not modelled further. -/
def parse_settings_loop : List Str → List Str → List String → Cue →
    Except PyErr (List String × Cue)
  | [], _seen, errs, cue => .ok (errs, cue)
  | tok :: rest, seen, errs, cue =>
    if tok = [] then parse_settings_loop rest seen errs cue
    else
      let index := pyFind tok (lit ":")
      let setting := if index = -1 then tok.dropLast else tok.take index.toNat
      let value0 := if index = -1 then tok else tok.drop (index.toNat + 1)
      let errs1 := if seen.contains setting then errs ++ ["Duplicate setting."] else errs
      let seen1 := seen ++ [setting]
      if value0 = [] then .ok (errs1 ++ ["No value for setting defined."], cue)
      else if setting = lit "vertical" then
        if value0 ≠ lit "rl" ∧ value0 ≠ lit "lr" then
          parse_settings_loop rest seen1
            (errs1 ++ ["Writing direction can only be set to \"rl\" or \"rl\"."]) cue
        else parse_settings_loop rest seen1 errs1 { cue with direction := value0 }
      else if setting = lit "line" then
        let comp := splitOnChar ',' value0
        let value := if pyHasSub value0 (lit ",") then comp.getD 0 [] else value0
        if ¬ lineNumGrammar value then
          parse_settings_loop rest seen1
            (errs1 ++ ["Line position takes a number or percentage."]) cue
        else .error .typeError
      else if setting = lit "position" then
        let comp := splitOnChar ',' value0
        let hasComma := pyHasSub value0 (lit ",")
        let value := if hasComma then comp.getD 0 [] else value0
        let position_align : Option Str := if hasComma then some (comp.getD 1 []) else none
        match value.getLast? with
        | none => .error .indexError
        | some lastc =>
          if lastc ≠ '%' then
            parse_settings_loop rest seen1 (errs1 ++ ["Text position must be a percentage."]) cue
          else
            let num_val := value.dropLast
            if ¬ is_number num_val then
              parse_settings_loop rest seen1 (errs1 ++ ["Line position needs to be a number"]) cue
            else
              match pyIntStr num_val with
              | .error e => .error e
              | .ok n =>
                if n > 100 ∨ n < 0 then
                  parse_settings_loop rest seen1
                    (errs1 ++ ["Text position needs to be between 0 and 100%."]) cue
                else
                  match position_align with
                  | some pa =>
                    if pa ≠ lit "line-left" ∧ pa ≠ lit "center" ∧ pa ≠ lit "line-right" then
                      parse_settings_loop rest seen1
                        (errs1 ++
                          ["Position alignment needs to be one of line-left, center or line-right"])
                        cue
                    else
                      parse_settings_loop rest seen1 errs1
                        { cue with position_align := pa,
                                   text_position := .num (pyFloatVal num_val) }
                  | none =>
                    parse_settings_loop rest seen1 errs1
                      { cue with text_position := .num (pyFloatVal num_val) }
      else if setting = lit "size" then
        match value0.getLast? with
        | none => .error .indexError
        | some lastc =>
          if lastc ≠ '%' then
            parse_settings_loop rest seen1 (errs1 ++ ["Size must be a percentage."]) cue
          else
            let size0 := value0.dropLast
            match pyIntStr size0 with
            | .error e => .error e
            | .ok n =>
              if n > 100 then
                parse_settings_loop rest seen1 (errs1 ++ ["Size cannot be >100%."]) cue
              else
                -- the source's `if size is None:` test is never true and is skipped here
                let size1 : ℚ := pyFloatVal size0
                if size1 < 0 ∨ size1 > 100 then
                  parse_settings_loop rest seen1
                    (errs1 ++ ["Size needs to be between 0 and 100%."]) cue
                else parse_settings_loop rest seen1 errs1 { cue with size := size1 }
      else if setting = lit "align" then
        if ¬ align_values.contains value0 then
          parse_settings_loop rest seen1
            (errs1 ++
              ["Alignment can only be set to one of ('start', 'center', 'end', 'left', 'right')."])
            cue
        else parse_settings_loop rest seen1 errs1 { cue with alignment := value0 }
      else parse_settings_loop rest seen1 (errs1 ++ ["Invalid setting."]) cue

/-- `parse_settings(input, cue)` from the source: split the settings region
on whitespace and run the loop with an empty `seen` list. -/
def parse_settings (input : Str) (cue : Cue) : Except PyErr (List String × Cue) :=
  parse_settings_loop (pySplit input) [] [] cue

end WebVTTCueTimingsAndSettingsParser

/-- `{line, message}` error records collected by the document parser. -/
structure VttError where
  line : Nat
  message : String
deriving DecidableEq, Repr

/-- The default entity table from `WebVTTParser.__init__`, as an ordered
association list (Python dicts preserve insertion order, which matters for
the prefix-fallback lookup in the tokenizer). -/
def defaultEntities : List (Str × Str) :=
  [(lit "&amp", lit "&"), (lit "&lt", lit "<"), (lit "&gt", lit ">"),
   (lit "&lrm", lit "‎"), (lit "&rlm", lit "‏"), (lit "&nbsp", lit " ")]

namespace WebVTTCueTextParser

/-- `self.entities.get(k)` (exact dict lookup). -/
def entGet (ents : List (Str × Str)) (k : Str) : Option Str :=
  match ents.find? (fun kv => kv.1 = k) with
  | some kv => some kv.2
  | none => none

/-- `self.entities.get(k)` collapsed to a string: the mapped value, or `''`
when absent. The source only tests truthiness (`if self.entities.get(..)`)
and then reads the value, so absent and empty-valued keys behave alike. -/
def entLookup (ents : List (Str × Str)) (k : Str) : Str := (entGet ents k).getD []

/-- The keys of the entity map that are prefixes of `buffer`, in map
(insertion) order: `[*filter(lambda x: buffer.startswith(x), keys)]`. -/
def prefixKeys (ents : List (Str × Str)) (buffer : Str) : List Str :=
  (ents.map Prod.fst).filter (fun k => k.isPrefixOf buffer)

/-- `re.match(r'^&#([0-9]+)$', buffer)`: returns the digit group. -/
def numRefDigits (buffer : Str) : Option Str :=
  match buffer with
  | '&' :: '#' :: rest =>
    if rest ≠ [] ∧ rest.all (·.isDigit) then some rest else none
  | _ => none

/-- `re.match(r'^&#(x?[0-9]+)$', buffer)`: returns (hex flag, digit group).
Note the source's hex form accepts only decimal digit characters after the
`x` (the regex class is `[0-9]`), interpreted in base 16 via
`int('0' + m[1], 16)`. -/
def numRefX (buffer : Str) : Option (Bool × Str) :=
  match buffer with
  | '&' :: '#' :: 'x' :: rest =>
    if rest ≠ [] ∧ rest.all (·.isDigit) then some (true, rest) else none
  | '&' :: '#' :: rest =>
    if rest ≠ [] ∧ rest.all (·.isDigit) then some (false, rest) else none
  | _ => none

/-- Base-16 value of a digit string (as `int('0x...', 16)` computes it for
the `[0-9]`-only strings the regex admits). -/
def hexVal (s : Str) : Nat :=
  s.foldl (fun a c => 16 * a + WebVTTCueTimingsAndSettingsParser.digitVal c) 0

/-- `from_char_code`: Python `chr`, which raises ValueError outside the
Unicode range. (`Char.ofNat` maps the surrogate range to NUL where Python
would build a lone-surrogate string; no input here uses surrogates.) -/
def from_char_code (n : Nat) : Except PyErr Char :=
  if n < 1114112 then .ok (Char.ofNat n) else .error .valueError

/-- `re.search(r'[a-z#0-9]', c, re.IGNORECASE)` on one character (ASCII
reading; the exotic IGNORECASE extras such as U+212A are not modelled). -/
def escBodyChar (c : Char) : Bool :=
  ('a' ≤ c && c ≤ 'z') || ('A' ≤ c && c ≤ 'Z') || c = '#' || ('0' ≤ c && c ≤ '9')

/-- `self.err(message)` of the cue-text parser: suppressed in `metadata`
mode, emitted otherwise. -/
def ctErrs (mode : Str) (msg : String) : List String :=
  if mode = lit "metadata" then [] else [msg]

/-- Filter a whole message list through the `metadata`-mode suppression
(used for the messages the nested timestamp scanner reports through
`self.err`). -/
def ctFilter (mode : Str) (msgs : List String) : List String :=
  if mode = lit "metadata" then [] else msgs

/-- `' '.join(buffer.split())`: collapse whitespace runs in a start-tag
annotation to single spaces. -/
def annCollapse (s : Str) : Str := List.intercalate [' '] (pySplit s)

/-- Tokenizer states of `next_token`. -/
inductive TokState where
  | data | escape | tag | startTag | startTagClass | startTagAnn | endTag | timestampTag
deriving DecidableEq, Repr

/-- Tokens produced by `next_token`. `empty` is the `return ()` after the
scan loop, which is unreachable because every state returns on
end-of-input. -/
inductive Token where
  | text (s : Str)
  | startTag (name : Str) (classes : List Str) (ann : Str)
  | endTag (s : Str)
  | timestamp (s : Str)
  | empty
deriving DecidableEq, Repr

/-- Resolution of the escape buffer when the scanner meets `;`
(source lines 596-608): numeric character reference first, then the exact
map lookup of `buffer + ';'`, then the first map key in insertion order
that is a prefix of the buffer (residual characters and the `;` appended),
else an error and the literal buffer plus `;`. Returns the emitted error
messages and the text to append. -/
def resolveSemi (ents : List (Str × Str)) (mode : Str) (buffer : Str) :
    Except PyErr (List String × Str) :=
  match numRefX buffer with
  | some (hex, ds) =>
    match from_char_code (if hex then hexVal ds else
        WebVTTCueTimingsAndSettingsParser.digitsVal ds) with
    | .ok ch => .ok ([], [ch])
    | .error e => .error e
  | none =>
    if entLookup ents (buffer ++ [';']) ≠ [] then .ok ([], entLookup ents (buffer ++ [';']))
    else
      match prefixKeys ents buffer with
      | k :: _ => .ok ([], entLookup ents k ++ buffer.drop k.length ++ [';'])
      | [] => .ok (ctErrs mode "Incorrect escape.", buffer ++ [';'])

/-- Resolution of the escape buffer at `<` or end-of-input
(source lines 578-588): the decimal-only numeric form, then the exact map
lookup of the bare buffer, else the literal buffer; an `Incorrect escape.`
error is always reported first. -/
def resolveEnd (ents : List (Str × Str)) (buffer : Str) : Except PyErr Str :=
  match numRefDigits buffer with
  | some ds =>
    match from_char_code (WebVTTCueTimingsAndSettingsParser.digitsVal ds) with
    | .ok ch => .ok [ch]
    | .error e => .error e
  | none =>
    if entLookup ents buffer ≠ [] then .ok (entLookup ents buffer)
    else .ok buffer

/-- `next_token` from the source, on the remaining-suffix representation.
The loop registers `result`, `buffer` and `classes` are parameters; the
loop runs while `pos ≤ len`, and on the suffix representation the
end-of-input iteration is the `[]` case of each state. Returns the emitted
error messages, the token and the remaining suffix. -/
def next_token (ents : List (Str × Str)) (mode : Str) :
    TokState → Str → Str → List Str → Str → Except PyErr (List String × Token × Str)
  | .data, result, _buffer, _classes, [] => .ok ([], .text result, [])
  | .data, result, buffer, classes, c :: rest =>
    if c = '&' then next_token ents mode .escape result [c] classes rest
    else if c = '<' ∧ result = [] then next_token ents mode .tag result buffer classes rest
    else if c = '<' then .ok ([], .text result, c :: rest)
    else next_token ents mode .data (result ++ [c]) buffer classes rest
  | .escape, result, buffer, _classes, [] =>
    match resolveEnd ents buffer with
    | .ok s => .ok (ctErrs mode "Incorrect escape.", .text (result ++ s), [])
    | .error e => .error e
  | .escape, result, buffer, classes, c :: rest =>
    if c = '<' then
      match resolveEnd ents buffer with
      | .ok s => .ok (ctErrs mode "Incorrect escape.", .text (result ++ s), c :: rest)
      | .error e => .error e
    else if c = '&' then
      next_token ents mode .escape (result ++ buffer) [c] classes rest
        |>.map (fun r => (ctErrs mode "Incorrect escape." ++ r.1, r.2))
    else if escBodyChar c then next_token ents mode .escape result (buffer ++ [c]) classes rest
    else if c = ';' then
      match resolveSemi ents mode buffer with
      | .ok (msgs, s) =>
        next_token ents mode .data (result ++ s) buffer classes rest
          |>.map (fun r => (msgs ++ r.1, r.2))
      | .error e => .error e
    else
      next_token ents mode .data (result ++ buffer ++ [c]) buffer classes rest
        |>.map (fun r => (ctErrs mode "Incorrect escape." ++ r.1, r.2))
  | .tag, result, buffer, classes, [] => .ok ([], .startTag [] [] [], [])
  | .tag, result, buffer, classes, c :: rest =>
    if c = ' ' ∨ c = '\t' ∨ c = '\n' ∨ c = '\x0c' then
      next_token ents mode .startTagAnn result buffer classes rest
    else if c = '.' then next_token ents mode .startTagClass result buffer classes rest
    else if c = '/' then next_token ents mode .endTag result buffer classes rest
    else if c.isDigit then next_token ents mode .timestampTag [c] buffer classes rest
    else if c = '>' then .ok ([], .startTag [] [] [], rest)
    else next_token ents mode .startTag [c] buffer classes rest
  | .startTag, result, buffer, classes, [] => .ok ([], .startTag result [] [], [])
  | .startTag, result, buffer, classes, c :: rest =>
    if c = ' ' ∨ c = '\t' ∨ c = '\x0c' then
      next_token ents mode .startTagAnn result buffer classes rest
    else if c = '\n' then next_token ents mode .startTagAnn result [c] classes rest
    else if c = '.' then next_token ents mode .startTagClass result buffer classes rest
    else if c = '>' then .ok ([], .startTag result [] [], rest)
    else next_token ents mode .startTag (result ++ [c]) buffer classes rest
  | .startTagClass, result, buffer, classes, [] =>
    .ok ([], .startTag result (classes ++ if buffer ≠ [] then [buffer] else []) [], [])
  | .startTagClass, result, buffer, classes, c :: rest =>
    if c = ' ' ∨ c = '\t' ∨ c = '\x0c' then
      next_token ents mode .startTagAnn result []
        (classes ++ if buffer ≠ [] then [buffer] else []) rest
    else if c = '\n' then
      next_token ents mode .startTagAnn result [c]
        (classes ++ if buffer ≠ [] then [buffer] else []) rest
    else if c = '.' then
      next_token ents mode .startTagClass result []
        (classes ++ if buffer ≠ [] then [buffer] else []) rest
    else if c = '>' then
      .ok ([], .startTag result (classes ++ if buffer ≠ [] then [buffer] else []) [], rest)
    else next_token ents mode .startTagClass result (buffer ++ [c]) classes rest
  | .startTagAnn, result, buffer, classes, [] =>
    .ok ([], .startTag result classes (annCollapse buffer), [])
  | .startTagAnn, result, buffer, classes, c :: rest =>
    if c = '>' then .ok ([], .startTag result classes (annCollapse buffer), rest)
    else next_token ents mode .startTagAnn result (buffer ++ [c]) classes rest
  | .endTag, result, _buffer, _classes, [] => .ok ([], .endTag result, [])
  | .endTag, result, buffer, classes, c :: rest =>
    if c = '>' then .ok ([], .endTag result, rest)
    else next_token ents mode .endTag (result ++ [c]) buffer classes rest
  | .timestampTag, result, _buffer, _classes, [] => .ok ([], .timestamp result, [])
  | .timestampTag, result, buffer, classes, c :: rest =>
    if c = '>' then .ok ([], .timestamp result, rest)
    else next_token ents mode .timestampTag (result ++ [c]) buffer classes rest

end WebVTTCueTextParser

namespace WebVTTCueTextParser

/-- One open element during tree construction. The Python code keeps a dict
with a `parent` back-reference and appends children in place; here the
chain of open elements is an explicit stack (innermost first) and a node is
materialized into its parent when its scope closes, which yields exactly
the `remove_cycles` result (children lists only, no back-edges). -/
structure OpenNode where
  name : Str
  classes : List Str
  value : Option Str
  children : List Node

/-- Append a finished child to the current node (the innermost open
element, or the root children list when no element is open). -/
def pushChild (stack : List OpenNode) (root : List Node) (n : Node) :
    List OpenNode × List Node :=
  match stack with
  | [] => ([], root ++ [n])
  | h :: t => ({ h with children := h.children ++ [n] } :: t, root)

/-- `attach(token)`: open a new element as a child of the current node and
descend into it. -/
def attach (stack : List OpenNode) (name : Str) (classes : List Str) : List OpenNode :=
  ⟨name, classes, none, []⟩ :: stack

/-- `in_scope(name)`: walk the parent chain looking for an element with the
given name (the nameless root never matches). -/
def in_scope (stack : List OpenNode) (name : Str) : Bool :=
  stack.any (fun n => n.name = name)

/-- Close one open element: materialize it and hand it to its parent. -/
def closeOne (h : OpenNode) (t : List OpenNode) (root : List Node) :
    List OpenNode × List Node :=
  pushChild t root (Node.object h.name h.classes h.value h.children)

/-- The `while current.get('parent')` loop at the end of `parse`: close all
remaining open elements, reporting `Required end tag missing.` for each one
that is not a `v` element (inner elements first). -/
def closeOpenAux (mode : Str) : OpenNode → List OpenNode → List Node → List String →
    List String × List Node
  | h, [], root, errs =>
    let errs1 := if h.name ≠ lit "v" then errs ++ ctErrs mode "Required end tag missing." else errs
    (errs1, root ++ [Node.object h.name h.classes h.value h.children])
  | h, h2 :: t, root, errs =>
    let errs1 := if h.name ≠ lit "v" then errs ++ ctErrs mode "Required end tag missing." else errs
    closeOpenAux mode
      { h2 with children := h2.children ++ [Node.object h.name h.classes h.value h.children] }
      t root errs1

/-- Finish the tree: close whatever is still open. -/
def closeOpen (mode : Str) (stack : List OpenNode) (root : List Node) (errs : List String) :
    List String × List Node :=
  match stack with
  | [] => (errs, root)
  | h :: t => closeOpenAux mode h t root errs

/-- The token-consuming loop of `WebVTTCueTextParser.parse`. `fuel` bounds
the number of loop iterations; each `next_token` call consumes at least one
character, so `text.length + 1` iterations always suffice and the
fuel-exhausted case is unreachable (it finalizes the tree like the normal
loop exit). State: remaining input, open-element stack, root children,
timestamps seen, error messages. -/
def parseLoop (ents : List (Str × Str)) (mode : Str) (cue_start cue_end : ℚ) :
    Nat → Str → List OpenNode → List Node → List ℚ → List String →
    Except PyErr (List String × List Node)
  | 0, _rem, stack, root, _tss, errs =>
    let f := closeOpen mode stack root errs
    .ok (f.1, f.2)
  | _fuel + 1, [], stack, root, _tss, errs =>
    let f := closeOpen mode stack root errs
    .ok (f.1, f.2)
  | fuel + 1, c :: rem0, stack, root, tss, errs =>
    match next_token ents mode .data [] [] [] (c :: rem0) with
    | .error e => .error e
    | .ok (terrs, token, rem) =>
      let errs := errs ++ terrs
      match token with
      | .text s => 
        let p := pushChild stack root (Node.text s)
        parseLoop ents mode cue_start cue_end fuel rem p.1 p.2 tss errs
      | .startTag name classes ann =>
        let errs := errs ++
          (if mode = lit "chapters" then ctErrs mode "Start tags not allowed in chapter title text." else [])
        let errs := errs ++
          (if name ≠ lit "v" ∧ name ≠ lit "lang" ∧ ann ≠ [] then
            ctErrs mode "Only <v> and <lang> can have an annotation." else [])
        if name = lit "c" ∨ name = lit "i" ∨ name = lit "b" ∨ name = lit "u" ∨
            name = lit "ruby" then
          parseLoop ents mode cue_start cue_end fuel rem (attach stack name classes) root tss errs
        else if name = lit "rt" then
          -- `current['name']` raises KeyError when the current node is the root dict
          match stack with
          | [] => .error .keyError
          | h :: _ =>
            if h.name = lit "ruby" then
              parseLoop ents mode cue_start cue_end fuel rem (attach stack name classes) root tss errs
            else
              parseLoop ents mode cue_start cue_end fuel rem stack root tss
                (errs ++ ctErrs mode "Incorrect start tag.")
        else if name = lit "v" then
          let errs := errs ++
            (if in_scope stack (lit "v") then ctErrs mode "<v> cannot be nested inside itself." else [])
          let stack1 := (attach stack name classes).modifyHead (fun h => { h with value := some ann })
          let errs := errs ++ (if ann = [] then ctErrs mode "<v> requires an annotation." else [])
          parseLoop ents mode cue_start cue_end fuel rem stack1 root tss errs
        else if name = lit "lang" then
          let stack1 := (attach stack name classes).modifyHead (fun h => { h with value := some ann })
          parseLoop ents mode cue_start cue_end fuel rem stack1 root tss errs
        else
          parseLoop ents mode cue_start cue_end fuel rem stack root tss
            (errs ++ ctErrs mode "Incorrect start tag.")
      | .endTag name =>
        let errs := errs ++
          (if mode = lit "chapters" then ctErrs mode "End tags not allowed in chapter title text." else [])
        -- `token[1] == current['name']` raises KeyError at the root
        match stack with
        | [] => .error .keyError
        | h :: t =>
          if name = h.name then
            let p := closeOne h t root
            parseLoop ents mode cue_start cue_end fuel rem p.1 p.2 tss errs
          else if name = lit "ruby" ∧ h.name = lit "rt" then
            -- `current = current['parent']['parent']`: the rt node's parent is the
            -- ruby element; ascending twice closes both. With no second open
            -- element the root dict has no 'parent' key: KeyError.
            match t with
            | [] => .error .keyError
            | h2 :: t2 =>
              let p1 := closeOne h (h2 :: t2) root
              match p1.1 with
              | [] => .error .keyError
              | h3 :: t3 =>
                let p2 := closeOne h3 t3 p1.2
                parseLoop ents mode cue_start cue_end fuel rem p2.1 p2.2 tss errs
          else
            parseLoop ents mode cue_start cue_end fuel rem stack root tss
              (errs ++ ctErrs mode "Incorrect end tag.")
      | .timestamp s =>
        let errs := errs ++
          (if mode = lit "chapters" then ctErrs mode "Timestamp not allowed in chapter title text." else [])
        let pt := WebVTTCueTimingsAndSettingsParser.parse_timestamp s
        let errs := errs ++ ctFilter mode pt.1
        match pt.2 with
        | none => parseLoop ents mode cue_start cue_end fuel rem stack root tss errs
        | some ts =>
          let errs := errs ++
            (if ts ≤ cue_start ∨ ts ≥ cue_end then
              ctErrs mode "Timestamp must be between start timestamp and end timestamp." else [])
          let errs := errs ++
            (if tss ≠ [] ∧ tss.getLastD 0 ≥ ts then
              ctErrs mode "Timestamp must be greater than any previous timestamp." else [])
          let p := pushChild stack root (Node.timestamp ts)
          parseLoop ents mode cue_start cue_end fuel rem p.1 p.2 (tss ++ [ts]) errs
      | .empty =>
        parseLoop ents mode cue_start cue_end fuel rem stack root tss errs

/-- `WebVTTCueTextParser.parse(cue_start, cue_end)`: run the token loop
over the whole payload and return the error messages and the
`remove_cycles`d tree (the root's children list). -/
def parse (ents : List (Str × Str)) (mode : Str) (text : Str) (cue_start cue_end : ℚ) :
    Except PyErr (List String × List Node) :=
  parseLoop ents mode cue_start cue_end (text.length + 1) text [] [] [] []

end WebVTTCueTextParser

namespace WebVTTCueTextParser

/-- The spec's resolution rule, modelled from its words for comparison with
the code: the *longest* entity-map key that is a prefix of the buffer. -/
def specLongestPrefixKey (ents : List (Str × Str)) (buffer : Str) : Option Str :=
  (prefixKeys ents buffer).foldl
    (fun acc k =>
      match acc with
      | none => some k
      | some m => if k.length > m.length then some k else some m) none

end WebVTTCueTextParser

namespace WebVTTCueTimingsAndSettingsParser

/-- `self.line[self.pos] not in self.SPACE` tests, as used on the timing
line (an exhausted line is "not a space" too, exactly as `None not in
SPACE` is true). -/
def headIsSpace (rem : Str) : Bool :=
  match rem.head? with
  | some c => SPACE.elem c
  | none => false

/-- `WebVTTCueTimingsAndSettingsParser.parse(cue, previous_cue_start)`: the
full cue timing line. Returns the emitted messages, the success flag
(Python `True` / falsy `None`) and the updated cue. The three separate
`-` `-` `>` character checks of the source, which all report the same
message and abort, are collapsed into one pattern match; the
`space_before_setting` flag is written by the source but never read, so it
is not tracked. A raise from `parse_settings` propagates. -/
def timings_parse (line : Str) (cue : Cue) (previous_cue_start : ℚ) :
    Except PyErr (List String × Bool × Cue) :=
  let r0 := skipChars SPACE line
  let t1 := timestamp r0
  match t1.2.1 with
  | none => .ok (t1.1, false, cue)
  | some st =>
    let cue1 := { cue with start_time := st }
    let errs := t1.1 ++
      (if st < previous_cue_start then
        ["Start timestamp is not greater than or equal to start timestamp of previous cue."]
      else []) ++
      (if ¬ headIsSpace t1.2.2 then ["Timestamp not separated from \"-->\" by whitespace."]
      else [])
    match skipChars SPACE t1.2.2 with
    | '-' :: '-' :: '>' :: r2 =>
      let errs := errs ++
        (if ¬ headIsSpace r2 then ["\"-->\" not separated from timestamp by whitespace."]
        else [])
      let t2 := timestamp (skipChars SPACE r2)
      match t2.2.1 with
      | none => .ok (errs ++ t2.1, false, cue1)
      | some et =>
        let cue2 := { cue1 with end_time := et }
        let errs := errs ++ t2.1 ++
          (if et ≤ st then ["End timestamp is not greater than start timestamp."] else [])
        match parse_settings (skipChars SPACE t2.2.2) cue2 with
        | .error e => .error e
        | .ok (serrs, cue3) => .ok (errs ++ serrs, true, cue3)
    | _ => .ok (errs ++ ["No valid timestamp separator found."], false, cue1)

end WebVTTCueTimingsAndSettingsParser

namespace WebVTTParser

open WebVTTCueTimingsAndSettingsParser WebVTTCueTextParser

/-- `input_vtt.replace('\u0000', '�')`. -/
def replaceNul : Str → Str :=
  List.map (fun c => if c = '\u0000' then '�' else c)

/-- `input_vtt.replace('\u000D\u000A', lf)` (left-to-right,
non-overlapping, like `str.replace`). -/
def replaceCRLF : Str → Str
  | '\u000D' :: '\u000A' :: rest => '\u000A' :: replaceCRLF rest
  | c :: rest => c :: replaceCRLF rest
  | [] => []

/-- `input_vtt.replace('\u000D', lf)`. -/
def replaceCR : Str → Str :=
  List.map (fun c => if c = '\u000D' then '\u000A' else c)

/-- `input_vtt.split(sep='\n')` (the 1-indexed dict the source builds is
this list; `lines.get(i)` is position `i - 1`). -/
def splitLF : Str → List Str
  | [] => [[]]
  | '\u000A' :: rest => [] :: splitLF rest
  | c :: rest =>
    match splitLF rest with
    | l :: ls => (c :: l) :: ls
    | [] => [[c]]

/-- The HEADER loop (source lines 90-95): every non-blank line gets a
`No blank line after the signature.` error, and a line containing `-->`
additionally stops the loop with `already_collected` set - the error for
that line is emitted *before* the separator check. Returns the collected
errors, the stopping line position, the remaining lines (starting at that
position) and the `already_collected` flag. -/
def headerScan : Nat → List Str → List VttError → List VttError × Nat × List Str × Bool
  | pos, [], errs => (errs, pos, [], false)
  | pos, l :: rest, errs =>
    if l = [] then (errs, pos, l :: rest, false)
    else
      let errs1 := errs ++ [⟨pos, "No blank line after the signature."⟩]
      if pyHasSub l (lit "-->") then (errs1, pos, l :: rest, true)
      else headerScan (pos + 1) rest errs1

/-- The blank-line skip at the top of the cue loop (only taken when
`already_collected` is false). -/
def skipBlank : Nat → List Str → Nat × List Str
  | pos, [] => (pos, [])
  | pos, l :: rest => if l = [] then skipBlank (pos + 1) rest else (pos, l :: rest)

/-- The NOTE comment loop: scan to the next blank line (or end), reporting
any line that contains `-->`. -/
def commentScan : Nat → List Str → List VttError → List VttError × Nat × List Str
  | pos, [], errs => (errs, pos, [])
  | pos, l :: rest, errs =>
    if l = [] then (errs, pos, l :: rest)
    else
      let errs1 :=
        if pyHasSub l (lit "-->") then errs ++ [⟨pos, "Cannot have timestamp in a comment."⟩]
        else errs
      commentScan (pos + 1) rest errs1

/-- The BAD CUE recovery loop. It indexes `lines[line_pos]` with `[]`, so
running past the last line raises `KeyError`. -/
def badCueScan : Nat → List Str → Except PyErr (Nat × List Str × Bool)
  | _pos, [] => .error .keyError
  | pos, l :: rest =>
    if l = [] then .ok (pos, l :: rest, false)
    else if pyHasSub l (lit "-->") then .ok (pos, l :: rest, true)
    else badCueScan (pos + 1) rest

/-- The CUE TEXT collection loop: gather payload lines (newline-joined)
until a blank line, end of input, or a line containing `-->` (which is
reported and left for the next iteration via `already_collected`). -/
def cueTextCollect : Nat → List Str → Str → List VttError →
    List VttError × Nat × List Str × Bool × Str
  | pos, [], text, errs => (errs, pos, [], false, text)
  | pos, l :: rest, text, errs =>
    if l = [] then (errs, pos, l :: rest, false, text)
    else if pyHasSub l (lit "-->") then
      (errs ++ [⟨pos, "Blank line missing before cue."⟩], pos, l :: rest, true, text)
    else
      let text1 := (if text ≠ [] then text ++ ['\u000A'] else text) ++ l
      cueTextCollect (pos + 1) rest text1 errs

/-- Shared tail of one cue-loop iteration once the timing line is fixed:
run the timings parser, then either the bad-cue recovery or the payload
collection, cue-text parsing and cue append. `k` is the continuation into
the next loop iteration. -/
def cueBody (ents : List (Str × Str)) (mode : Str) (pos : Nat) (line : Str) (rest : List Str)
    (cue0 : Cue) (errs : List VttError) (cues : List Cue)
    (k : Nat → List Str → Bool → List VttError → List Cue →
      Except PyErr (List VttError × List Cue)) :
    Except PyErr (List VttError × List Cue) :=
  let previous_cue_start : ℚ := match cues.getLast? with
    | some c => c.start_time
    | none => 0
  match timings_parse line cue0 previous_cue_start with
  | .error e => .error e
  | .ok (tmsgs, okFlag, cue1) =>
    let errs1 := errs ++ tmsgs.map (fun m => ⟨pos, m⟩)
    if okFlag then
      let col := cueTextCollect (pos + 1) rest [] errs1
      match col with
      | (errs2, pos2, rem2, ac2, text) =>
        match WebVTTCueTextParser.parse ents mode text cue1.start_time cue1.end_time with
        | .error e => .error e
        | .ok (cmsgs, tree) =>
          let errs3 := errs2 ++ cmsgs.map (fun m => ⟨pos2, m⟩)
          let cue2 := { cue1 with text := text, tree := some tree }
          k pos2 rem2 ac2 errs3 (cues ++ [cue2])
    else
      match badCueScan (pos + 1) rest with
      | .error e => .error e
      | .ok (pos2, rem2, ac2) => k pos2 rem2 ac2 errs1 cues

/-- The CUE LOOP (source lines 98-170). `fuel` bounds the iteration count;
every iteration consumes at least one line, so `lines.length + 1` always
suffices and the fuel-exhausted case (which returns like the normal loop
exit) is unreachable. -/
def cueLoop (ents : List (Str × Str)) (mode : Str) :
    Nat → Nat → List Str → Bool → List VttError → List Cue →
    Except PyErr (List VttError × List Cue)
  | 0, _pos, _rem, _ac, errs, cues => .ok (errs, cues)
  | fuel + 1, pos, rem, ac, errs, cues =>
    match rem with
    | [] => .ok (errs, cues)
    | l0 :: rest0 =>
      let s := if ac then (pos, l0 :: rest0) else skipBlank pos (l0 :: rest0)
      match s.2 with
      | [] => .ok (errs, cues)
      | line :: rest =>
        let pos1 := s.1
        if ¬ pyHasSub line (lit "-->") then
          -- the line is a cue identifier (`cue.id = lines[line_pos]`)
          if (lit "NOTE").isPrefixOf line then
            match commentScan (pos1 + 1) rest errs with
            | (errs1, pos2, rem2) => cueLoop ents mode fuel pos2 rem2 ac errs1 cues
          else
            match rest with
            | [] =>
              cueLoop ents mode fuel (pos1 + 1) []
                ac (errs ++ [⟨pos1 + 1, "Cue identifier cannot be standalone."⟩]) cues
            | l2 :: rest2 =>
              if l2 = [] then
                cueLoop ents mode fuel (pos1 + 1) (l2 :: rest2)
                  ac (errs ++ [⟨pos1 + 1, "Cue identifier cannot be standalone."⟩]) cues
              else if ¬ pyHasSub l2 (lit "-->") then
                cueLoop ents mode fuel (pos1 + 1) (l2 :: rest2)
                  ac (errs ++ [⟨pos1 + 1, "Cue identifier needs to be followed by timestamp."⟩])
                  cues
              else
                cueBody ents mode (pos1 + 1) l2 rest2 { id := line } errs cues
                  (cueLoop ents mode fuel)
        else
          cueBody ents mode pos1 line rest {} errs cues (cueLoop ents mode fuel)

/-- The signature check plus header scan plus cue loop, over the 1-indexed
line list. `lines.get(1)[0]` on an empty first line raises IndexError
exactly as Python string indexing does. -/
def parseLines (ents : List (Str × Str)) (mode : Str) (lines : List Str) :
    Except PyErr (List VttError × List Cue) :=
  match lines with
  | [] => .error .keyError
  | line1 :: restLines =>
    match line1 with
    | [] => .error .indexError
    | c0 :: _ =>
      let bom := if c0 = '﻿' then 1 else 0
      let signature_length := 6 + bom
      let sigErr : List VttError :=
        if line1.length < signature_length ∨
            pyFind line1 (lit "WEBVTT") ≠ ((0 + bom : Nat) : Int) ∨
            (line1.length > signature_length ∧
              line1.getD signature_length ' ' ≠ ' ' ∧
              line1.getD signature_length ' ' ≠ '\t') then
          [⟨1, "No valid signature. (File needs to start with \"WEBVTT\"."⟩]
        else []
      match headerScan 2 restLines sigErr with
      | (errs, pos, rem, ac) => cueLoop ents mode (lines.length + 1) pos rem ac errs []

/-- `WebVTTParser.parse(input_vtt, mode)` together with the internal cue
list the call builds (the Python function returns only the error list; the
cue list is a local that is dropped - see `parse` below). The constructor
default `entities or {...}` is applied here. -/
def parseRun (entities : List (Str × Str)) (input_vtt : Str) (mode : Str) :
    Except PyErr (List VttError × List Cue) :=
  let ents := if entities = [] then defaultEntities else entities
  parseLines ents mode (splitLF (replaceCR (replaceCRLF (replaceNul input_vtt))))

/-- `WebVTTParser.parse`: exactly what the Python method returns - the
error list alone. -/
def parse (entities : List (Str × Str)) (input_vtt : Str) (mode : Str) :
    Except PyErr (List VttError) :=
  (parseRun entities input_vtt mode).map Prod.fst

/-- The internal cue list of a parse run (not exposed by `parse`). -/
def parseCues (entities : List (Str × Str)) (input_vtt : Str) (mode : Str) :
    Except PyErr (List Cue) :=
  (parseRun entities input_vtt mode).map Prod.snd

end WebVTTParser

/-- The valid two-cue document from the repository's test suite
(`good_vtt_data` in `test_webvtt.py`). -/
def goodVttData : Str :=
  lit "WEBVTT\n\n1\n00:00:00.500 --> 00:00:02.000\n<c.yellow.bg_blue>This is yellow text on a blue background</c>\n\n2\n00:00:02.500 --> 00:00:04.300\nand the way we access it is changing stuff position:45%,line-right align:center size:35%\n"

namespace WebVTTCueTimingsAndSettingsParser

theorem elem_digitChar {d : Nat} (hd : d ≤ 9) : DIGITS.elem (Nat.digitChar d) = true := by
  interval_cases d <;> decide

theorem digitVal_digitChar {d : Nat} (hd : d ≤ 9) : digitVal (Nat.digitChar d) = d := by
  interval_cases d <;> decide

theorem collectChars_append (pat ds rest : Str)
    (hds : ∀ c ∈ ds, pat.elem c = true)
    (hrest : ∀ c ∈ rest.head?, pat.elem c = false) :
    collectChars pat (ds ++ rest) = (ds, rest) := by
  induction ds with
  | nil =>
    cases rest with
    | nil => rfl
    | cons c t =>
      have hc := hrest c rfl
      simp only [List.elem_eq_mem, decide_eq_false_iff_not] at hc
      simp [collectChars, hc]
  | cons c t ih =>
    have hc := hds c (by simp)
    simp only [List.elem_eq_mem, decide_eq_true_eq] at hc
    simp [collectChars, hc, ih (fun x hx => hds x (by simp [hx]))]

theorem digitsVal_twoDig {n : Nat} (hn : n ≤ 99) : digitsVal (twoDig n) = n := by
  have h1 : n / 10 ≤ 9 := by omega
  have h2 : n % 10 ≤ 9 := by omega
  simp [digitsVal, twoDig, List.foldl, digitVal_digitChar h1, digitVal_digitChar h2]
  omega

theorem digitsVal_threeDig {n : Nat} (hn : n ≤ 999) : digitsVal (threeDig n) = n := by
  have h1 : n / 100 ≤ 9 := by omega
  have h2 : n / 10 % 10 ≤ 9 := by omega
  have h3 : n % 10 ≤ 9 := by omega
  simp [digitsVal, threeDig, List.foldl, digitVal_digitChar h1, digitVal_digitChar h2,
    digitVal_digitChar h3]
  omega

theorem length_twoDig (n : Nat) : (twoDig n).length = 2 := rfl

theorem length_threeDig (n : Nat) : (threeDig n).length = 3 := rfl

theorem elem_twoDig {n : Nat} (hn : n ≤ 99) : ∀ c ∈ twoDig n, DIGITS.elem c = true := by
  intro c hc
  have h1 : n / 10 ≤ 9 := by omega
  have h2 : n % 10 ≤ 9 := by omega
  simp only [twoDig, List.mem_cons, List.mem_singleton, List.not_mem_nil] at hc
  rcases hc with h | h | h
  · exact h ▸ elem_digitChar h1
  · exact h ▸ elem_digitChar h2
  · cases h

theorem elem_threeDig {n : Nat} (hn : n ≤ 999) : ∀ c ∈ threeDig n, DIGITS.elem c = true := by
  intro c hc
  have h1 : n / 100 ≤ 9 := by omega
  have h2 : n / 10 % 10 ≤ 9 := by omega
  have h3 : n % 10 ≤ 9 := by omega
  simp only [threeDig, List.mem_cons, List.mem_singleton, List.not_mem_nil] at hc
  rcases hc with h | h | h | h
  · exact h ▸ elem_digitChar h1
  · exact h ▸ elem_digitChar h2
  · exact h ▸ elem_digitChar h3
  · cases h

end WebVTTCueTimingsAndSettingsParser

namespace WebVTTCueTimingsAndSettingsParser

set_option maxHeartbeats 1000000 in
theorem timestamp_hours_form (hs : Str) (m s f : Nat) (rest : Str)
    (hne : hs ≠ []) (hdig : ∀ c ∈ hs, DIGITS.elem c = true)
    (hm : m ≤ 59) (hs59 : s ≤ 59) (hf : f ≤ 999)
    (hrest : ∀ c ∈ rest.head?, DIGITS.elem c = false) :
    timestamp (hs ++ ':' :: (twoDig m ++ ':' :: (twoDig s ++ '.' :: (threeDig f ++ rest)))) =
      ([], some ((digitsVal hs : ℚ) * 3600 + (m : ℚ) * 60 + (s : ℚ) + (f : ℚ) / 1000), rest) := by
  obtain ⟨h, t, rfl⟩ : ∃ h t, hs = h :: t := by
    cases hs with
    | nil => exact absurd rfl hne
    | cons h t => exact ⟨h, t, rfl⟩
  have hC1 : collectChars DIGITS
      ((h :: t) ++ ':' :: (twoDig m ++ ':' :: (twoDig s ++ '.' :: (threeDig f ++ rest)))) =
      (h :: t, ':' :: (twoDig m ++ ':' :: (twoDig s ++ '.' :: (threeDig f ++ rest)))) :=
    collectChars_append _ _ _ hdig (by intro c hc; simp at hc; subst hc; decide)
  have hC2 : collectChars DIGITS (twoDig m ++ ':' :: (twoDig s ++ '.' :: (threeDig f ++ rest))) =
      (twoDig m, ':' :: (twoDig s ++ '.' :: (threeDig f ++ rest))) :=
    collectChars_append _ _ _ (elem_twoDig (by omega)) (by intro c hc; simp at hc; subst hc; decide)
  have hC3 : collectChars DIGITS (twoDig s ++ '.' :: (threeDig f ++ rest)) =
      (twoDig s, '.' :: (threeDig f ++ rest)) :=
    collectChars_append _ _ _ (elem_twoDig (by omega)) (by intro c hc; simp at hc; subst hc; decide)
  have hC4 : collectChars DIGITS (threeDig f ++ rest) = (threeDig f, rest) :=
    collectChars_append _ _ _ (elem_threeDig hf) hrest
  have hh : DIGITS.elem h = true := hdig h (by simp)
  simp only [List.cons_append] at hC1 ⊢
  rw [timestamp]
  simp only [hh, not_true_eq_false, if_false, hC1, hC2, hC3, length_twoDig]
  norm_num
  rw [tsTail]
  simp only [hC4, length_threeDig]
  rw [digitsVal_twoDig (show m <= 99 by omega), digitsVal_twoDig (show s <= 99 by omega)]
  rw [digitsVal_threeDig hf]
  rw [if_neg (by omega : ¬ (3:Nat) ≠ 3), if_neg (by omega : ¬ m > 59), if_neg (by omega : ¬ s > 59)]
  have h36 : (digitsVal (h :: t) : ℚ) * 60 * 60 = (digitsVal (h :: t) : ℚ) * 3600 := by ring
  rw [h36]

end WebVTTCueTimingsAndSettingsParser

namespace WebVTTCueTimingsAndSettingsParser

theorem timestamp_minutes_form (m s f : Nat) (rest : Str)
    (hm : m ≤ 59) (hs59 : s ≤ 59) (hf : f ≤ 999)
    (hrest : ∀ c ∈ rest.head?, DIGITS.elem c = false) :
    timestamp (twoDig m ++ ':' :: (twoDig s ++ '.' :: (threeDig f ++ rest))) =
      ([], some ((m : ℚ) * 60 + (s : ℚ) + (f : ℚ) / 1000), rest) := by
  have hC1 : collectChars DIGITS (twoDig m ++ ':' :: (twoDig s ++ '.' :: (threeDig f ++ rest))) =
      (twoDig m, ':' :: (twoDig s ++ '.' :: (threeDig f ++ rest))) :=
    collectChars_append _ _ _ (elem_twoDig (by omega)) (by intro c hc; simp at hc; subst hc; decide)
  have hC2 : collectChars DIGITS (twoDig s ++ '.' :: (threeDig f ++ rest)) =
      (twoDig s, '.' :: (threeDig f ++ rest)) :=
    collectChars_append _ _ _ (elem_twoDig (by omega)) (by intro c hc; simp at hc; subst hc; decide)
  have hC3 : collectChars DIGITS (threeDig f ++ rest) = (threeDig f, rest) :=
    collectChars_append _ _ _ (elem_threeDig hf) hrest
  have hdvm : digitsVal (twoDig m) = m := digitsVal_twoDig (by omega)
  have hdvs : digitsVal (twoDig s) = s := digitsVal_twoDig (by omega)
  have hh : DIGITS.elem (Nat.digitChar (m / 10)) = true := elem_digitChar (by omega)
  have hm59 : decide (digitsVal (twoDig m) > 59) = false := by
    rw [hdvm]; exact decide_eq_false (by omega)
  rw [show twoDig m ++ ':' :: (twoDig s ++ '.' :: (threeDig f ++ rest)) =
      Nat.digitChar (m / 10) :: (Nat.digitChar (m % 10) ::
        (':' :: (twoDig s ++ '.' :: (threeDig f ++ rest)))) from rfl] at hC1 ⊢
  rw [timestamp]
  rw [show collectChars DIGITS (Nat.digitChar (m / 10) :: (Nat.digitChar (m % 10) ::
        (':' :: (twoDig s ++ '.' :: (threeDig f ++ rest))))) =
      (twoDig m, ':' :: (twoDig s ++ '.' :: (threeDig f ++ rest))) from hC1]
  simp only [hh, not_true_eq_false, if_false, length_twoDig, hC2, hm59]
  norm_num
  rw [tsTail]
  simp only [hC3, length_threeDig, digitsVal_threeDig hf, hdvm, hdvs]
  rw [if_neg (by omega : ¬ (3:Nat) ≠ 3), if_neg (by omega : ¬ m > 59), if_neg (by omega : ¬ s > 59)]
  have h0 : (digitsVal (lit "0") : ℚ) = 0 := by norm_num [show digitsVal (lit "0") = 0 from rfl]
  rw [h0, if_neg (by decide : ¬ ('.' = ':'))]
  simp only [Prod.mk.injEq, Option.some.injEq]
  exact ⟨trivial, by ring, trivial⟩

end WebVTTCueTimingsAndSettingsParser

namespace WebVTTCueTimingsAndSettingsParser

/-- C2: for every valid timestamp `H:MM:SS.mmm` (hour run `hs` an arbitrary
nonempty digit string) or `MM:SS.mmm` with `MM ≤ 59`, `SS ≤ 59` and exactly
three millisecond digits, `timestamp()` reports no error and returns exactly
`H*3600 + MM*60 + SS + mmm/1000` seconds, with Python numbers idealized as
exact rationals. -/
theorem C2_valid_timestamp_exact_value :
    (∀ hs m s f, hs ≠ [] → (∀ c ∈ hs, DIGITS.elem c = true) → m ≤ 59 → s ≤ 59 → f ≤ 999 →
      timestamp (hs ++ ':' :: (twoDig m ++ ':' :: (twoDig s ++ '.' :: threeDig f))) =
        ([], some ((digitsVal hs : ℚ) * 3600 + (m : ℚ) * 60 + (s : ℚ) + (f : ℚ) / 1000), [])) ∧
    (∀ m s f, m ≤ 59 → s ≤ 59 → f ≤ 999 →
      timestamp (twoDig m ++ ':' :: (twoDig s ++ '.' :: threeDig f)) =
        ([], some ((m : ℚ) * 60 + (s : ℚ) + (f : ℚ) / 1000), [])) := by
  constructor
  · intro hs m s f hne hdig hm hs59 hf
    have h := timestamp_hours_form hs m s f [] hne hdig hm hs59 hf (by simp)
    simpa using h
  · intro m s f hm hs59 hf
    have h := timestamp_minutes_form m s f [] hm hs59 hf (by simp)
    simpa using h

/-- Witness for C2 at the concrete timestamps `01:02:03.004` and `05:06.007`. -/
theorem C2_valid_timestamp_exact_value_witness :
    timestamp (lit "01:02:03.004") =
      ([], some ((1 : ℚ) * 3600 + (2 : ℚ) * 60 + (3 : ℚ) + (4 : ℚ) / 1000), []) ∧
    timestamp (lit "05:06.007") =
      ([], some ((5 : ℚ) * 60 + (6 : ℚ) + (7 : ℚ) / 1000), []) := by
  constructor
  · have h := C2_valid_timestamp_exact_value.1 (lit "01") 2 3 4 (by decide) (by decide)
      (by omega) (by omega) (by omega)
    rw [show lit "01:02:03.004" =
      lit "01" ++ ':' :: (twoDig 2 ++ ':' :: (twoDig 3 ++ '.' :: threeDig 4)) from rfl, h]
    norm_num [show digitsVal (lit "01") = 1 from rfl]
  · have h := C2_valid_timestamp_exact_value.2 5 6 7 (by omega) (by omega) (by omega)
    rw [show lit "05:06.007" = twoDig 5 ++ ':' :: (twoDig 6 ++ '.' :: threeDig 7) from rfl, h]
    norm_num

end WebVTTCueTimingsAndSettingsParser

namespace WebVTTCueTimingsAndSettingsParser

theorem collectChars_all (pat ds : Str) (hds : ∀ c ∈ ds, pat.elem c = true) :
    collectChars pat ds = (ds, []) := by
  have h := collectChars_append pat ds [] hds (by simp)
  simpa using h

theorem ts_fail_over59_colon (a b c d : Str)
    (hne : a ≠ []) (ha : ∀ x ∈ a, DIGITS.elem x = true) (hb : ∀ x ∈ b, DIGITS.elem x = true)
    (hc : ∀ x ∈ c, DIGITS.elem x = true) (hd : ∀ x ∈ d, DIGITS.elem x = true)
    (hlb : b.length = 2) (hlc : c.length = 2) (hld : d.length = 3)
    (hover : 59 < digitsVal b ∨ 59 < digitsVal c) :
    (timestamp (a ++ ':' :: (b ++ ':' :: (c ++ '.' :: d)))).1.length = 1 ∧
    (timestamp (a ++ ':' :: (b ++ ':' :: (c ++ '.' :: d)))).2.1 = none := by
  obtain ⟨h, t, rfl⟩ : ∃ h t, a = h :: t := by
    cases a with
    | nil => exact absurd rfl hne
    | cons h t => exact ⟨h, t, rfl⟩
  have hC1 : collectChars DIGITS ((h :: t) ++ ':' :: (b ++ ':' :: (c ++ '.' :: d))) =
      (h :: t, ':' :: (b ++ ':' :: (c ++ '.' :: d))) :=
    collectChars_append _ _ _ ha (by intro x hx; simp at hx; subst hx; decide)
  have hC2 : collectChars DIGITS (b ++ ':' :: (c ++ '.' :: d)) = (b, ':' :: (c ++ '.' :: d)) :=
    collectChars_append _ _ _ hb (by intro x hx; simp at hx; subst hx; decide)
  have hC3 : collectChars DIGITS (c ++ '.' :: d) = (c, '.' :: d) :=
    collectChars_append _ _ _ hc (by intro x hx; simp at hx; subst hx; decide)
  have hC4 : collectChars DIGITS d = (d, []) := collectChars_all _ _ hd
  have hh : DIGITS.elem h = true := ha h (by simp)
  simp only [List.cons_append] at hC1 ⊢
  rw [timestamp]
  simp only [hh, not_true_eq_false, if_false, hC1, hC2, hC3, hlb, hlc]
  norm_num
  rw [tsTail]
  simp only [hC4, hld]
  rcases Nat.lt_or_ge 59 (digitsVal b) with hgt | hle
  · rw [if_neg (by omega : ¬ (3:Nat) ≠ 3), if_pos (by omega : digitsVal b > 59)]
    exact ⟨rfl, rfl⟩
  · have hcgt : 59 < digitsVal c := by
      rcases hover with h1 | h1
      · omega
      · exact h1
    rw [if_neg (by omega : ¬ (3:Nat) ≠ 3), if_neg (by omega : ¬ digitsVal b > 59),
      if_pos (by omega : digitsVal c > 59)]
    exact ⟨rfl, rfl⟩

end WebVTTCueTimingsAndSettingsParser

namespace WebVTTCueTimingsAndSettingsParser

theorem ts_fail_minutes_over59_mm (b c d : Str)
    (hb : ∀ x ∈ b, DIGITS.elem x = true) (hc : ∀ x ∈ c, DIGITS.elem x = true)
    (_hd : ∀ x ∈ d, DIGITS.elem x = true)
    (hlb : b.length = 2) (hover : 59 < digitsVal b) :
    (timestamp (b ++ ':' :: (c ++ '.' :: d))).1.length = 1 ∧
    (timestamp (b ++ ':' :: (c ++ '.' :: d))).2.1 = none := by
  obtain ⟨b1, b2, rfl⟩ := List.length_eq_two.mp hlb
  have hC1 : collectChars DIGITS ([b1, b2] ++ ':' :: (c ++ '.' :: d)) =
      ([b1, b2], ':' :: (c ++ '.' :: d)) :=
    collectChars_append _ _ _ hb (by intro x hx; simp at hx; subst hx; decide)
  have hC2 : collectChars DIGITS (c ++ '.' :: d) = (c, '.' :: d) :=
    collectChars_append _ _ _ hc (by intro x hx; simp at hx; subst hx; decide)
  have hh : DIGITS.elem b1 = true := hb b1 (by simp)
  have hhours : decide (digitsVal [b1, b2] > 59) = true := decide_eq_true hover
  simp only [List.cons_append] at hC1 ⊢
  rw [timestamp]
  simp only [hh, not_true_eq_false, if_false, hC1, hC2, hhours]
  by_cases hlc : c.length = 2
  · simp only [hlc]
    norm_num
    refine ⟨?_, ?_⟩ <;> (split <;> simp_all)
  · rw [if_pos (by omega : c.length ≠ 2)]
    exact ⟨rfl, rfl⟩

theorem ts_fail_seconds_over59_mm (b c d : Str)
    (hb : ∀ x ∈ b, DIGITS.elem x = true) (hc : ∀ x ∈ c, DIGITS.elem x = true)
    (hd : ∀ x ∈ d, DIGITS.elem x = true)
    (hlb : b.length = 2) (hb59 : digitsVal b ≤ 59) (hlc : c.length = 2) (hld : d.length = 3)
    (hover : 59 < digitsVal c) :
    (timestamp (b ++ ':' :: (c ++ '.' :: d))).1.length = 1 ∧
    (timestamp (b ++ ':' :: (c ++ '.' :: d))).2.1 = none := by
  obtain ⟨b1, b2, rfl⟩ := List.length_eq_two.mp hlb
  have hC1 : collectChars DIGITS ([b1, b2] ++ ':' :: (c ++ '.' :: d)) =
      ([b1, b2], ':' :: (c ++ '.' :: d)) :=
    collectChars_append _ _ _ hb (by intro x hx; simp at hx; subst hx; decide)
  have hC2 : collectChars DIGITS (c ++ '.' :: d) = (c, '.' :: d) :=
    collectChars_append _ _ _ hc (by intro x hx; simp at hx; subst hx; decide)
  have hC3 : collectChars DIGITS d = (d, []) := collectChars_all _ _ hd
  have hh : DIGITS.elem b1 = true := hb b1 (by simp)
  have hhours : decide (digitsVal [b1, b2] > 59) = false := decide_eq_false (by omega)
  simp only [List.cons_append] at hC1 ⊢
  rw [timestamp]
  simp only [hh, not_true_eq_false, if_false, hC1, hC2, hhours, hlc]
  norm_num
  rw [if_neg (by decide : ¬ ('.' = ':'))]
  rw [tsTail]
  simp only [hC3, hld]
  rw [if_neg (by omega : ¬ (3:Nat) ≠ 3), if_neg (by omega : ¬ digitsVal [b1, b2] > 59),
    if_pos (by omega : digitsVal c > 59)]
  exact ⟨rfl, rfl⟩

end WebVTTCueTimingsAndSettingsParser

namespace WebVTTCueTimingsAndSettingsParser

theorem ts_fail_minutes_digits (a b rest : Str)
    (hne : a ≠ []) (ha : ∀ x ∈ a, DIGITS.elem x = true) (hb : ∀ x ∈ b, DIGITS.elem x = true)
    (hrest : ∀ x ∈ rest.head?, DIGITS.elem x = false) (hlb : b.length ≠ 2) :
    (timestamp (a ++ ':' :: (b ++ rest))).1.length = 1 ∧
    (timestamp (a ++ ':' :: (b ++ rest))).2.1 = none := by
  obtain ⟨h, t, rfl⟩ : ∃ h t, a = h :: t := by
    cases a with
    | nil => exact absurd rfl hne
    | cons h t => exact ⟨h, t, rfl⟩
  have hC1 : collectChars DIGITS ((h :: t) ++ ':' :: (b ++ rest)) = (h :: t, ':' :: (b ++ rest)) :=
    collectChars_append _ _ _ ha (by intro x hx; simp at hx; subst hx; decide)
  have hC2 : collectChars DIGITS (b ++ rest) = (b, rest) := collectChars_append _ _ _ hb hrest
  have hh : DIGITS.elem h = true := ha h (by simp)
  simp only [List.cons_append] at hC1 ⊢
  rw [timestamp]
  simp only [hh, not_true_eq_false, if_false, hC1, hC2]
  rw [if_pos hlb]
  exact ⟨rfl, rfl⟩

theorem ts_fail_seconds_digits (a b c rest : Str)
    (hne : a ≠ []) (ha : ∀ x ∈ a, DIGITS.elem x = true) (hb : ∀ x ∈ b, DIGITS.elem x = true)
    (hc : ∀ x ∈ c, DIGITS.elem x = true)
    (hrest : ∀ x ∈ rest.head?, DIGITS.elem x = false)
    (hlb : b.length = 2) (hlc : c.length ≠ 2) :
    (timestamp (a ++ ':' :: (b ++ ':' :: (c ++ rest)))).1.length = 1 ∧
    (timestamp (a ++ ':' :: (b ++ ':' :: (c ++ rest)))).2.1 = none := by
  obtain ⟨h, t, rfl⟩ : ∃ h t, a = h :: t := by
    cases a with
    | nil => exact absurd rfl hne
    | cons h t => exact ⟨h, t, rfl⟩
  have hC1 : collectChars DIGITS ((h :: t) ++ ':' :: (b ++ ':' :: (c ++ rest))) =
      (h :: t, ':' :: (b ++ ':' :: (c ++ rest))) :=
    collectChars_append _ _ _ ha (by intro x hx; simp at hx; subst hx; decide)
  have hC2 : collectChars DIGITS (b ++ ':' :: (c ++ rest)) = (b, ':' :: (c ++ rest)) :=
    collectChars_append _ _ _ hb (by intro x hx; simp at hx; subst hx; decide)
  have hC3 : collectChars DIGITS (c ++ rest) = (c, rest) := collectChars_append _ _ _ hc hrest
  have hh : DIGITS.elem h = true := ha h (by simp)
  simp only [List.cons_append] at hC1 ⊢
  rw [timestamp]
  simp only [hh, not_true_eq_false, if_false, hC1, hC2, hC3, hlb]
  norm_num
  rw [if_neg hlc]
  exact ⟨rfl, rfl⟩

theorem ts_fail_ms_digits (a b c d rest : Str)
    (hne : a ≠ []) (ha : ∀ x ∈ a, DIGITS.elem x = true) (hb : ∀ x ∈ b, DIGITS.elem x = true)
    (hc : ∀ x ∈ c, DIGITS.elem x = true) (hd : ∀ x ∈ d, DIGITS.elem x = true)
    (hrest : ∀ x ∈ rest.head?, DIGITS.elem x = false)
    (hlb : b.length = 2) (hlc : c.length = 2) (hld : d.length ≠ 3) :
    (timestamp (a ++ ':' :: (b ++ ':' :: (c ++ '.' :: (d ++ rest))))).1.length = 1 ∧
    (timestamp (a ++ ':' :: (b ++ ':' :: (c ++ '.' :: (d ++ rest))))).2.1 = none := by
  obtain ⟨h, t, rfl⟩ : ∃ h t, a = h :: t := by
    cases a with
    | nil => exact absurd rfl hne
    | cons h t => exact ⟨h, t, rfl⟩
  have hC1 : collectChars DIGITS ((h :: t) ++ ':' :: (b ++ ':' :: (c ++ '.' :: (d ++ rest)))) =
      (h :: t, ':' :: (b ++ ':' :: (c ++ '.' :: (d ++ rest)))) :=
    collectChars_append _ _ _ ha (by intro x hx; simp at hx; subst hx; decide)
  have hC2 : collectChars DIGITS (b ++ ':' :: (c ++ '.' :: (d ++ rest))) =
      (b, ':' :: (c ++ '.' :: (d ++ rest))) :=
    collectChars_append _ _ _ hb (by intro x hx; simp at hx; subst hx; decide)
  have hC3 : collectChars DIGITS (c ++ '.' :: (d ++ rest)) = (c, '.' :: (d ++ rest)) :=
    collectChars_append _ _ _ hc (by intro x hx; simp at hx; subst hx; decide)
  have hC4 : collectChars DIGITS (d ++ rest) = (d, rest) := collectChars_append _ _ _ hd hrest
  have hh : DIGITS.elem h = true := ha h (by simp)
  simp only [List.cons_append] at hC1 ⊢
  rw [timestamp]
  simp only [hh, not_true_eq_false, if_false, hC1, hC2, hC3, hlb, hlc]
  norm_num
  rw [tsTail]
  simp only [hC4]
  rw [if_pos hld]
  exact ⟨rfl, rfl⟩

end WebVTTCueTimingsAndSettingsParser

namespace WebVTTCueTimingsAndSettingsParser

theorem ts_fail_first_run_digits_mm (b c d : Str)
    (hb : ∀ x ∈ b, DIGITS.elem x = true) (hc : ∀ x ∈ c, DIGITS.elem x = true)
    (_hd : ∀ x ∈ d, DIGITS.elem x = true) (hlb : b.length ≠ 2) :
    (timestamp (b ++ ':' :: (c ++ '.' :: d))).1.length = 1 ∧
    (timestamp (b ++ ':' :: (c ++ '.' :: d))).2.1 = none := by
  cases b with
  | nil =>
    rw [List.nil_append, timestamp]
    rw [if_pos (by decide : ¬ (DIGITS.elem ':') = true)]
    exact ⟨rfl, rfl⟩
  | cons h t =>
    have hC1 : collectChars DIGITS ((h :: t) ++ ':' :: (c ++ '.' :: d)) =
        (h :: t, ':' :: (c ++ '.' :: d)) :=
      collectChars_append _ _ _ hb (by intro x hx; simp at hx; subst hx; decide)
    have hC2 : collectChars DIGITS (c ++ '.' :: d) = (c, '.' :: d) :=
      collectChars_append _ _ _ hc (by intro x hx; simp at hx; subst hx; decide)
    have hh : DIGITS.elem h = true := hb h (by simp)
    simp only [List.cons_append] at hC1 ⊢
    rw [timestamp]
    simp only [hh, not_true_eq_false, if_false, hC1, hC2]
    by_cases hlc : c.length = 2
    · simp only [hlc]
      norm_num
      by_cases hp : 2 < t.length + 1 ∨ 59 < digitsVal (h :: t)
      · rw [if_pos (Or.inl hp)]
        refine ⟨?_, ?_⟩ <;> (split <;> simp_all)
      · rw [if_neg (by
          rintro (hpp | hdot)
          · exact hp hpp
          · exact absurd hdot (by decide))]
        rw [if_neg (by simpa using hlb)]
        exact ⟨rfl, rfl⟩
    · rw [if_pos (by omega : c.length ≠ 2)]
      exact ⟨rfl, rfl⟩

theorem ts_fail_no_unit_separator (a : Str)
    (hne : a ≠ []) (ha : ∀ x ∈ a, DIGITS.elem x = true) :
    (timestamp a).1.length = 1 ∧ (timestamp a).2.1 = none := by
  obtain ⟨h, t, rfl⟩ : ∃ h t, a = h :: t := by
    cases a with
    | nil => exact absurd rfl hne
    | cons h t => exact ⟨h, t, rfl⟩
  have hC1 : collectChars DIGITS (h :: t) = (h :: t, []) := collectChars_all _ _ ha
  have hh : DIGITS.elem h = true := ha h (by simp)
  rw [timestamp]
  simp only [hh, not_true_eq_false, if_false, hC1]
  exact ⟨rfl, trivial⟩

theorem ts_fail_no_decimal_separator (a b c : Str)
    (hne : a ≠ []) (ha : ∀ x ∈ a, DIGITS.elem x = true) (hb : ∀ x ∈ b, DIGITS.elem x = true)
    (hc : ∀ x ∈ c, DIGITS.elem x = true) (hlb : b.length = 2) (hlc : c.length = 2) :
    (timestamp (a ++ ':' :: (b ++ ':' :: c))).1.length = 1 ∧
    (timestamp (a ++ ':' :: (b ++ ':' :: c))).2.1 = none := by
  obtain ⟨h, t, rfl⟩ : ∃ h t, a = h :: t := by
    cases a with
    | nil => exact absurd rfl hne
    | cons h t => exact ⟨h, t, rfl⟩
  have hC1 : collectChars DIGITS ((h :: t) ++ ':' :: (b ++ ':' :: c)) =
      (h :: t, ':' :: (b ++ ':' :: c)) :=
    collectChars_append _ _ _ ha (by intro x hx; simp at hx; subst hx; decide)
  have hC2 : collectChars DIGITS (b ++ ':' :: c) = (b, ':' :: c) :=
    collectChars_append _ _ _ hb (by intro x hx; simp at hx; subst hx; decide)
  have hC3 : collectChars DIGITS c = (c, []) := collectChars_all _ _ hc
  have hh : DIGITS.elem h = true := ha h (by simp)
  simp only [List.cons_append] at hC1 ⊢
  rw [timestamp]
  simp only [hh, not_true_eq_false, if_false, hC1, hC2, hC3, hlb, hlc]
  norm_num
  exact ⟨rfl, rfl⟩

end WebVTTCueTimingsAndSettingsParser

namespace WebVTTCueTimingsAndSettingsParser

/-- C8: every timestamp whose minutes or seconds exceed 59, whose digit
group has the wrong length (2 for minutes and seconds, 3 for milliseconds,
exactly 2 for a leading run reinterpreted as minutes), or which is missing
a required `:` or `.` separator, makes `timestamp()` report an error and
return no value. The nine conjuncts cover, in order: minutes/seconds over
59 in `H:MM:SS.mmm` form; minutes over 59 and seconds over 59 in
`MM:SS.mmm` form; wrong digit counts for minutes, seconds and milliseconds
in colon form; wrong leading-run length in `MM:SS.mmm` form; a missing `:`
and a missing `.`. -/
theorem C8_malformed_timestamp_fails :
    (∀ a b c d : Str, a ≠ [] → digitRun a → digitRun b → digitRun c → digitRun d →
      b.length = 2 → c.length = 2 → d.length = 3 →
      (59 < digitsVal b ∨ 59 < digitsVal c) →
      timestampFails (a ++ ':' :: (b ++ ':' :: (c ++ '.' :: d)))) ∧
    (∀ b c d : Str, digitRun b → digitRun c → digitRun d → b.length = 2 →
      59 < digitsVal b → timestampFails (b ++ ':' :: (c ++ '.' :: d))) ∧
    (∀ b c d : Str, digitRun b → digitRun c → digitRun d → b.length = 2 →
      digitsVal b ≤ 59 → c.length = 2 → d.length = 3 → 59 < digitsVal c →
      timestampFails (b ++ ':' :: (c ++ '.' :: d))) ∧
    (∀ a b rest : Str, a ≠ [] → digitRun a → digitRun b →
      (∀ x ∈ rest.head?, DIGITS.elem x = false) → b.length ≠ 2 →
      timestampFails (a ++ ':' :: (b ++ rest))) ∧
    (∀ a b c rest : Str, a ≠ [] → digitRun a → digitRun b → digitRun c →
      (∀ x ∈ rest.head?, DIGITS.elem x = false) → b.length = 2 → c.length ≠ 2 →
      timestampFails (a ++ ':' :: (b ++ ':' :: (c ++ rest)))) ∧
    (∀ a b c d rest : Str, a ≠ [] → digitRun a → digitRun b → digitRun c → digitRun d →
      (∀ x ∈ rest.head?, DIGITS.elem x = false) → b.length = 2 → c.length = 2 →
      d.length ≠ 3 → timestampFails (a ++ ':' :: (b ++ ':' :: (c ++ '.' :: (d ++ rest))))) ∧
    (∀ b c d : Str, digitRun b → digitRun c → digitRun d → b.length ≠ 2 →
      timestampFails (b ++ ':' :: (c ++ '.' :: d))) ∧
    (∀ a : Str, a ≠ [] → digitRun a → timestampFails a) ∧
    (∀ a b c : Str, a ≠ [] → digitRun a → digitRun b → digitRun c →
      b.length = 2 → c.length = 2 → timestampFails (a ++ ':' :: (b ++ ':' :: c))) := by
  refine ⟨?_, ?_, ?_, ?_, ?_, ?_, ?_, ?_, ?_⟩
  · intro a b c d hne ha hb hc hd hlb hlc hld hover
    exact ts_fail_over59_colon a b c d hne ha hb hc hd hlb hlc hld hover
  · intro b c d hb hc hd hlb hover
    exact ts_fail_minutes_over59_mm b c d hb hc hd hlb hover
  · intro b c d hb hc hd hlb hb59 hlc hld hover
    exact ts_fail_seconds_over59_mm b c d hb hc hd hlb hb59 hlc hld hover
  · intro a b rest hne ha hb hrest hlb
    exact ts_fail_minutes_digits a b rest hne ha hb hrest hlb
  · intro a b c rest hne ha hb hc hrest hlb hlc
    exact ts_fail_seconds_digits a b c rest hne ha hb hc hrest hlb hlc
  · intro a b c d rest hne ha hb hc hd hrest hlb hlc hld
    exact ts_fail_ms_digits a b c d rest hne ha hb hc hd hrest hlb hlc hld
  · intro b c d hb hc hd hlb
    exact ts_fail_first_run_digits_mm b c d hb hc hd hlb
  · intro a hne ha
    exact ts_fail_no_unit_separator a hne ha
  · intro a b c hne ha hb hc hlb hlc
    exact ts_fail_no_decimal_separator a b c hne ha hb hc hlb hlc

/-- Witness for C8 at concrete inputs `00:60:00.000` (minutes over 59),
`00:00:00.00` (two millisecond digits) and `00:00:00` (missing `.`). -/
theorem C8_malformed_timestamp_fails_witness :
    timestampFails (lit "00:60:00.000") ∧
    timestampFails (lit "00:00:00.00") ∧
    timestampFails (lit "00:00:00") := by
  refine ⟨?_, ?_, ?_⟩
  · exact C8_malformed_timestamp_fails.1 (lit "00") (lit "60") (lit "00") (lit "000")
      (by decide) (by decide) (by decide) (by decide) (by decide)
      (by decide) (by decide) (by decide) (Or.inl (by decide))
  · have h := (C8_malformed_timestamp_fails.2.2.2.2.2.1) (lit "00") (lit "00") (lit "00")
      (lit "00") [] (by decide) (by decide) (by decide) (by decide) (by decide)
      (by simp) (by decide) (by decide) (by decide)
    simpa using h
  · exact (C8_malformed_timestamp_fails.2.2.2.2.2.2.2.2) (lit "00") (lit "00") (lit "00")
      (by decide) (by decide) (by decide) (by decide) (by decide) (by decide)

end WebVTTCueTimingsAndSettingsParser

namespace WebVTTCueTimingsAndSettingsParser

/-- C3 (code bug): the spec says a `line` setting value that passes the
numeric grammar marks the cue non-serializable iff its string form does not
round-trip; in the code every such value instead raises `TypeError` at
`value.find('-', start=1)` (CPython `str.find` accepts no keyword
arguments) before any flag logic runs - and even absent that, the flag
condition `str(float(num_val) != num_val)` is a non-empty, always-truthy
string. Evaluated here on the grammar-passing values `5` and `5%`. -/
theorem C3_line_setting_raises_typeerror (cue : Cue) :
    parse_settings (lit "line:5") cue = .error .typeError ∧
    parse_settings (lit "line:5%") cue = .error .typeError :=
  ⟨rfl, rfl⟩

/-- C10 counterexample: a duplicated `line` setting with grammar-valid
values does not report a duplicate error and does not apply the later
value - the whole settings parse aborts with `TypeError` on the first
`line` token. -/
theorem C10_duplicate_line_setting_raises :
    parse_settings (lit "line:5 line:6") ({} : Cue) = .error .typeError :=
  rfl

/-- The ten digit characters behave uniformly for every character-class
test the settings scanner applies to them. -/
theorem digitsElem_facts {c : Char} (h : DIGITS.elem c = true) :
    c.isDigit = true ∧ pyIsSpace c = false ∧ c ≠ '+' ∧ c ≠ '-' ∧ c ≠ ',' ∧ c ≠ ':' ∧
    c ≠ '%' ∧ lowerAscii c = c := by
  simp only [List.elem_eq_mem, decide_eq_true_eq] at h
  fin_cases h <;>
    exact ⟨rfl, rfl, by decide, by decide, by decide, by decide, by decide, rfl⟩

theorem digitRun_takeWhile {ds : Str} (h : digitRun ds) :
    ds.takeWhile (·.isDigit) = ds := by
  induction ds with
  | nil => rfl
  | cons c t ih =>
    have hc := (digitsElem_facts (h c (by simp))).1
    simp [List.takeWhile, hc, ih (fun x hx => h x (by simp [hx]))]

theorem digitRun_dropWhile {ds : Str} (h : digitRun ds) :
    ds.dropWhile (·.isDigit) = [] := by
  induction ds with
  | nil => rfl
  | cons c t ih =>
    have hc := (digitsElem_facts (h c (by simp))).1
    simp [List.dropWhile, hc, ih (fun x hx => h x (by simp [hx]))]

theorem nospace_dropWhile {ds : Str} (h : ∀ c ∈ ds, pyIsSpace c = false) :
    ds.dropWhile pyIsSpace = ds := by
  cases ds with
  | nil => rfl
  | cons c t => simp [List.dropWhile, h c (by simp)]

theorem pyStrip_nospace {ds : Str} (h : ∀ c ∈ ds, pyIsSpace c = false) :
    pyStrip ds = ds := by
  unfold pyStrip
  rw [nospace_dropWhile h, nospace_dropWhile (by intro c hc; exact h c (by simpa using hc)),
    List.reverse_reverse]

theorem digitRun_pyStrip {ds : Str} (h : digitRun ds) : pyStrip ds = ds :=
  pyStrip_nospace (fun c hc => (digitsElem_facts (h c hc)).2.1)

theorem digitRun_dropSign {ds : Str} (h : digitRun ds) : dropSign ds = ds := by
  cases ds with
  | nil => rfl
  | cons c t =>
    have hf := digitsElem_facts (h c (by simp))
    unfold dropSign
    split
    · next heq => exact absurd (List.cons.inj heq.symm).1.symm hf.2.2.1
    · next heq => exact absurd (List.cons.inj heq.symm).1.symm hf.2.2.2.1
    · rfl

theorem digitRun_all_isDigit {ds : Str} (h : digitRun ds) :
    ds.all (·.isDigit) = true := by
  rw [List.all_eq_true]
  intro c hc
  exact (digitsElem_facts (h c hc)).1

theorem digitRun_is_number {ds : Str} (h : digitRun ds) (hne : ds ≠ []) :
    is_number ds = true := by
  obtain ⟨c, t, rfl⟩ : ∃ c t, ds = c :: t := by
    cases ds with
    | nil => exact absurd rfl hne
    | cons c t => exact ⟨c, t, rfl⟩
  have hf := digitsElem_facts (h c (by simp))
  have hlow : lowerAscii c = c := hf.2.2.2.2.2.2.2
  have hhead : ∀ s : Str, (c :: t).map lowerAscii = s → s.head? = some c := by
    intro s hs
    rw [← hs]
    simp [hlow]
  have e1 : ((c :: t).map lowerAscii = lit "inf") = False := by
    apply eq_false
    intro heq
    have hc := hhead _ heq
    rw [show (lit "inf").head? = some 'i' from rfl] at hc
    rw [(Option.some.inj hc).symm] at hf
    exact absurd hf.1 (by decide)
  have e2 : ((c :: t).map lowerAscii = lit "infinity") = False := by
    apply eq_false
    intro heq
    have hc := hhead _ heq
    rw [show (lit "infinity").head? = some 'i' from rfl] at hc
    rw [(Option.some.inj hc).symm] at hf
    exact absurd hf.1 (by decide)
  have e3 : ((c :: t).map lowerAscii = lit "nan") = False := by
    apply eq_false
    intro heq
    have hc := hhead _ heq
    rw [show (lit "nan").head? = some 'n' from rfl] at hc
    rw [(Option.some.inj hc).symm] at hf
    exact absurd hf.1 (by decide)
  unfold is_number
  rw [digitRun_pyStrip h, digitRun_dropSign h]
  simp only [e1, e2, e3]
  simp only [decide_False, Bool.or_self, Bool.false_or, if_false, Bool.false_eq_true]
  unfold floatBodyOk
  rw [digitRun_takeWhile h, digitRun_dropWhile h]
  simp [floatExpOk]

theorem digitRun_pyIntStr {ds : Str} (h : digitRun ds) (hne : ds ≠ []) :
    pyIntStr ds = .ok (digitsVal ds : Int) := by
  have hsgn : (if ds.head? = some '-' then (-1 : Int) else 1) = 1 := by
    cases ds with
    | nil => rfl
    | cons c t =>
      have hf := digitsElem_facts (h c (by simp))
      rw [if_neg (by simp [hf.2.2.2.1])]
  unfold pyIntStr
  simp only [digitRun_pyStrip h, digitRun_dropSign h, hsgn]
  rw [if_pos ⟨hne, digitRun_all_isDigit h⟩]
  simp

theorem digitRun_pyFloatVal {ds : Str} (h : digitRun ds) :
    pyFloatVal ds = (digitsVal ds : ℚ) := by
  have hsgn : (if ds.head? = some '-' then (-1 : ℚ) else 1) = 1 := by
    cases ds with
    | nil => rfl
    | cons c t =>
      have hf := digitsElem_facts (h c (by simp))
      rw [if_neg (by simp [hf.2.2.2.1])]
  unfold pyFloatVal
  simp only [digitRun_pyStrip h, digitRun_dropSign h, hsgn, digitRun_takeWhile h,
    digitRun_dropWhile h]
  norm_num [digitsVal]

theorem pyFindAux_single_none {c0 : Char} {s : Str} (h : ∀ c ∈ s, ¬ c0 = c) :
    ∀ i, pyFindAux [c0] s i = -1 := by
  induction s with
  | nil => intro i; rfl
  | cons c t ih =>
    intro i
    unfold pyFindAux
    have hc : ([c0].isPrefixOf (c :: t)) = false := by
      simp [List.isPrefixOf, h c (by simp)]
    rw [hc]
    simp only [Bool.false_eq_true, if_false]
    exact ih (fun x hx => h x (by simp [hx])) (i + 1)

theorem pyFind_single_none {c0 : Char} {s : Str} (h : ∀ c ∈ s, ¬ c0 = c) :
    pyFind s [c0] = -1 := pyFindAux_single_none h 0

end WebVTTCueTimingsAndSettingsParser

namespace WebVTTCueTimingsAndSettingsParser

theorem pyFindAux_single_found {c0 : Char} {pre suf : Str} (h : ∀ c ∈ pre, ¬ c0 = c) :
    ∀ i : Nat, pyFindAux [c0] (pre ++ c0 :: suf) i = (i : Int) + pre.length := by
  induction pre with
  | nil =>
    intro i
    unfold pyFindAux
    simp [List.isPrefixOf]
  | cons c t ih =>
    intro i
    have hc : ([c0].isPrefixOf (c :: (t ++ c0 :: suf))) = false := by
      simp [List.isPrefixOf, h c (by simp)]
    simp only [List.cons_append, pyFindAux, List.append_eq, hc, Bool.false_eq_true, if_false]
    rw [ih (fun x hx => h x (by simp [hx])) (i + 1)]
    simp only [List.length_cons]
    push_cast
    ring

theorem pyFind_key_colon {key value : Str} (h : ∀ c ∈ key, ¬ ':' = c) :
    pyFind (key ++ ':' :: value) (lit ":") = (key.length : Int) := by
  have := @pyFindAux_single_found ':' key value h 0
  simpa [pyFind, lit] using this

theorem pySplitAcc_nospace {w : Str} (hw : ∀ c ∈ w, pyIsSpace c = false) :
    ∀ acc rest, pySplitAcc acc (w ++ rest) = pySplitAcc (w.reverse ++ acc) rest := by
  induction w with
  | nil => intro acc rest; simp
  | cons c t ih =>
    intro acc rest
    have hc := hw c (by simp)
    simp only [List.cons_append, pySplitAcc, List.append_eq, hc, Bool.false_eq_true, if_false]
    rw [ih (fun x hx => hw x (by simp [hx])) (c :: acc) rest]
    simp

theorem pySplit_two_words {w1 w2 : Str} (h1 : ∀ c ∈ w1, pyIsSpace c = false)
    (h2 : ∀ c ∈ w2, pyIsSpace c = false) (hne1 : w1 ≠ []) (hne2 : w2 ≠ []) :
    pySplit (w1 ++ ' ' :: w2) = [w1, w2] := by
  unfold pySplit
  rw [pySplitAcc_nospace h1 [] (' ' :: w2)]
  have hs1 : pySplitAcc (w1.reverse ++ []) (' ' :: w2) = w1 :: pySplitAcc [] w2 := by
    simp only [List.append_nil, pySplitAcc, show pyIsSpace ' ' = true from rfl, if_true]
    rw [if_neg (by simpa using hne1)]
    simp
  rw [hs1]
  have hs2 : pySplitAcc ([] : Str) w2 = [w2] := by
    have := pySplitAcc_nospace h2 [] []
    simp only [List.append_nil] at this
    rw [this]
    unfold pySplitAcc
    rw [if_neg (by simpa using hne2)]
    simp
  rw [hs2]

theorem pySplit_one_word {w : Str} (h : ∀ c ∈ w, pyIsSpace c = false) (hne : w ≠ []) :
    pySplit w = [w] := by
  unfold pySplit
  have := pySplitAcc_nospace h [] []
  simp only [List.append_nil] at this
  rw [this]
  unfold pySplitAcc
  rw [if_neg (by simpa using hne)]
  simp

end WebVTTCueTimingsAndSettingsParser

namespace WebVTTCueTimingsAndSettingsParser

theorem nospace_append {a b : Str} (ha : ∀ c ∈ a, pyIsSpace c = false)
    (hb : ∀ c ∈ b, pyIsSpace c = false) : ∀ c ∈ a ++ b, pyIsSpace c = false := by
  intro c hc
  rcases List.mem_append.mp hc with h | h
  · exact ha c h
  · exact hb c h

theorem settings_position_step (ds : Str) (rest seen : List Str) (errs : List String) (cue : Cue)
    (hd : digitRun ds) (hne : ds ≠ []) (hval : digitsVal ds ≤ 100) :
    parse_settings_loop ((lit "position:" ++ (ds ++ ['%'])) :: rest) seen errs cue =
      parse_settings_loop rest (seen ++ [lit "position"])
        (if seen.contains (lit "position") then errs ++ ["Duplicate setting."] else errs)
        { cue with text_position := .num ((digitsVal ds : ℚ)) } := by
  have hsh : lit "position:" ++ (ds ++ ['%']) = lit "position" ++ ':' :: (ds ++ ['%']) := rfl
  have hfind : pyFind (lit "position" ++ ':' :: (ds ++ ['%'])) (lit ":") = (8 : Int) := by
    have h8 := @pyFind_key_colon (lit "position") (ds ++ ['%']) (by decide)
    simpa using h8
  have hnc : ∀ c ∈ ds ++ ['%'], ¬ ',' = c := by
    intro c hc
    rcases List.mem_append.mp hc with h | h
    · exact fun heq => ((digitsElem_facts (hd c h)).2.2.2.2.1) heq.symm
    · simp at h; subst h; decide
  have hcomma : pyHasSub (ds ++ ['%']) (lit ",") = false := by
    unfold pyHasSub
    rw [show lit "," = [','] from rfl, pyFind_single_none hnc]
    simp
  have htake : List.take ((8 : Int)).toNat (lit "position" ++ ':' :: (ds ++ ['%'])) =
      lit "position" := by
    rw [show ((8 : Int)).toNat = (lit "position").length from rfl]
    exact List.take_left _ _
  have hdrop : List.drop (((8 : Int)).toNat + 1) (lit "position" ++ ':' :: (ds ++ ['%'])) =
      ds ++ ['%'] := by
    rw [show lit "position" ++ ':' :: (ds ++ ['%']) =
      (lit "position" ++ [':']) ++ (ds ++ ['%']) by simp]
    rw [show ((8 : Int)).toNat + 1 = (lit "position" ++ [':']).length from rfl]
    exact List.drop_left _ _
  have hlast : (ds ++ ['%']).getLast? = some '%' := by simp
  have hdl : (ds ++ ['%']).dropLast = ds := by simp
  have hisnum : is_number ds = true := digitRun_is_number hd hne
  have hint : pyIntStr ds = .ok (digitsVal ds : Int) := digitRun_pyIntStr hd hne
  have hfloat : pyFloatVal ds = (digitsVal ds : ℚ) := digitRun_pyFloatVal hd
  have hrange : ¬ ((digitsVal ds : Int) > 100 ∨ (digitsVal ds : Int) < 0) := by
    push_cast
    omega
  rw [hsh, parse_settings_loop]
  simp only [hfind, htake, hdrop, hcomma, hlast, hdl, hisnum, hint, hfloat,
    show ((8 : Int) = -1) = False from by norm_num,
    eq_false (by decide : ¬ (lit "position" = lit "vertical")),
    eq_false (by decide : ¬ (lit "position" = lit "line")),
    eq_false (show ¬ (lit "position" ++ ':' :: (ds ++ ['%']) = []) from by simp),
    eq_false (show ¬ ((ds ++ ['%']) = []) from by simp),
    eq_false hrange, if_false, eq_self_iff_true, if_true, not_true,
    Bool.false_eq_true, ne_eq, not_false_eq_true]

end WebVTTCueTimingsAndSettingsParser

namespace WebVTTCueTimingsAndSettingsParser

theorem settings_size_step (ds : Str) (rest seen : List Str) (errs : List String) (cue : Cue)
    (hd : digitRun ds) (hne : ds ≠ []) (hval : digitsVal ds ≤ 100) :
    parse_settings_loop ((lit "size:" ++ (ds ++ ['%'])) :: rest) seen errs cue =
      parse_settings_loop rest (seen ++ [lit "size"])
        (if seen.contains (lit "size") then errs ++ ["Duplicate setting."] else errs)
        { cue with size := (digitsVal ds : ℚ) } := by
  have hsh : lit "size:" ++ (ds ++ ['%']) = lit "size" ++ ':' :: (ds ++ ['%']) := rfl
  have hfind : pyFind (lit "size" ++ ':' :: (ds ++ ['%'])) (lit ":") = (4 : Int) := by
    have h4 := @pyFind_key_colon (lit "size") (ds ++ ['%']) (by decide)
    simpa using h4
  have htake : List.take ((4 : Int)).toNat (lit "size" ++ ':' :: (ds ++ ['%'])) =
      lit "size" := by
    rw [show ((4 : Int)).toNat = (lit "size").length from rfl]
    exact List.take_left _ _
  have hdrop : List.drop (((4 : Int)).toNat + 1) (lit "size" ++ ':' :: (ds ++ ['%'])) =
      ds ++ ['%'] := by
    rw [show lit "size" ++ ':' :: (ds ++ ['%']) = (lit "size" ++ [':']) ++ (ds ++ ['%']) by simp]
    rw [show ((4 : Int)).toNat + 1 = (lit "size" ++ [':']).length from rfl]
    exact List.drop_left _ _
  have hlast : (ds ++ ['%']).getLast? = some '%' := by simp
  have hdl : (ds ++ ['%']).dropLast = ds := by simp
  have hint : pyIntStr ds = .ok (digitsVal ds : Int) := digitRun_pyIntStr hd hne
  have hfloat : pyFloatVal ds = (digitsVal ds : ℚ) := digitRun_pyFloatVal hd
  have hgt : ¬ ((digitsVal ds : Int) > 100) := by push_cast; omega
  have hrange : ¬ ((digitsVal ds : ℚ) < 0 ∨ (digitsVal ds : ℚ) > 100) := by
    rintro (h1 | h1)
    · exact absurd h1 (by simp [Nat.cast_nonneg])
    · rw [show ((100:ℚ)) = ((100 : Nat) : ℚ) from by norm_num] at h1
      exact absurd (Nat.cast_lt.mp h1) (by omega)
  rw [hsh, parse_settings_loop]
  simp only [hfind, htake, hdrop, hlast, hdl, hint, hfloat,
    show ((4 : Int) = -1) = False from by norm_num,
    eq_false (by decide : ¬ (lit "size" = lit "vertical")),
    eq_false (by decide : ¬ (lit "size" = lit "line")),
    eq_false (by decide : ¬ (lit "size" = lit "position")),
    eq_false (show ¬ (lit "size" ++ ':' :: (ds ++ ['%']) = []) from by simp),
    eq_false (show ¬ ((ds ++ ['%']) = []) from by simp),
    eq_false hgt, eq_false hrange, if_false, eq_self_iff_true, if_true, not_true,
    Bool.false_eq_true, ne_eq, not_false_eq_true]

end WebVTTCueTimingsAndSettingsParser

namespace WebVTTCueTimingsAndSettingsParser

theorem settings_align_step (v : Str) (hv : v ∈ align_values) (rest seen : List Str)
    (errs : List String) (cue : Cue) :
    parse_settings_loop ((lit "align:" ++ v) :: rest) seen errs cue =
      parse_settings_loop rest (seen ++ [lit "align"])
        (if seen.contains (lit "align") then errs ++ ["Duplicate setting."] else errs)
        { cue with alignment := v } := by
  fin_cases hv <;> rfl

theorem settings_vertical_step (v : Str) (hv : v ∈ [lit "rl", lit "lr"]) (rest seen : List Str)
    (errs : List String) (cue : Cue) :
    parse_settings_loop ((lit "vertical:" ++ v) :: rest) seen errs cue =
      parse_settings_loop rest (seen ++ [lit "vertical"])
        (if seen.contains (lit "vertical") then errs ++ ["Duplicate setting."] else errs)
        { cue with direction := v } := by
  fin_cases hv <;> rfl

end WebVTTCueTimingsAndSettingsParser

namespace WebVTTCueTimingsAndSettingsParser

theorem C10_amended_duplicate_setting_last_wins :
    (∀ (cue : Cue) (v1 v2 : Str), v1 ∈ align_values → v2 ∈ align_values →
      parse_settings (lit "align:" ++ v1 ++ ' ' :: (lit "align:" ++ v2)) cue =
        .ok (["Duplicate setting."], { cue with alignment := v2 })) ∧
    (∀ (cue : Cue) (v1 v2 : Str), v1 ∈ [lit "rl", lit "lr"] → v2 ∈ [lit "rl", lit "lr"] →
      parse_settings (lit "vertical:" ++ v1 ++ ' ' :: (lit "vertical:" ++ v2)) cue =
        .ok (["Duplicate setting."], { cue with direction := v2 })) ∧
    (∀ (cue : Cue) (ds1 ds2 : Str), digitRun ds1 → ds1 ≠ [] → digitsVal ds1 ≤ 100 →
      digitRun ds2 → ds2 ≠ [] → digitsVal ds2 ≤ 100 →
      parse_settings
          (lit "position:" ++ (ds1 ++ ['%']) ++ ' ' :: (lit "position:" ++ (ds2 ++ ['%']))) cue =
        .ok (["Duplicate setting."], { cue with text_position := .num (digitsVal ds2 : ℚ) })) ∧
    (∀ (cue : Cue) (ds1 ds2 : Str), digitRun ds1 → ds1 ≠ [] → digitsVal ds1 ≤ 100 →
      digitRun ds2 → ds2 ≠ [] → digitsVal ds2 ≤ 100 →
      parse_settings
          (lit "size:" ++ (ds1 ++ ['%']) ++ ' ' :: (lit "size:" ++ (ds2 ++ ['%']))) cue =
        .ok (["Duplicate setting."], { cue with size := (digitsVal ds2 : ℚ) })) := by
  refine ⟨?_, ?_, ?_, ?_⟩
  · intro cue v1 v2 h1 h2
    fin_cases h1 <;> fin_cases h2 <;> rfl
  · intro cue v1 v2 h1 h2
    fin_cases h1 <;> fin_cases h2 <;> rfl
  · intro cue ds1 ds2 hd1 hne1 hv1 hd2 hne2 hv2
    have hw1 : ∀ c ∈ lit "position:" ++ (ds1 ++ ['%']), pyIsSpace c = false :=
      nospace_append (by decide)
        (nospace_append (fun c h => (digitsElem_facts (hd1 c h)).2.1) (by decide))
    have hw2 : ∀ c ∈ lit "position:" ++ (ds2 ++ ['%']), pyIsSpace c = false :=
      nospace_append (by decide)
        (nospace_append (fun c h => (digitsElem_facts (hd2 c h)).2.1) (by decide))
    unfold parse_settings
    rw [pySplit_two_words hw1 hw2 (by simp [lit]) (by simp [lit])]
    rw [settings_position_step ds1 _ _ _ _ hd1 hne1 hv1,
      settings_position_step ds2 _ _ _ _ hd2 hne2 hv2]
    rfl
  · intro cue ds1 ds2 hd1 hne1 hv1 hd2 hne2 hv2
    have hw1 : ∀ c ∈ lit "size:" ++ (ds1 ++ ['%']), pyIsSpace c = false :=
      nospace_append (by decide)
        (nospace_append (fun c h => (digitsElem_facts (hd1 c h)).2.1) (by decide))
    have hw2 : ∀ c ∈ lit "size:" ++ (ds2 ++ ['%']), pyIsSpace c = false :=
      nospace_append (by decide)
        (nospace_append (fun c h => (digitsElem_facts (hd2 c h)).2.1) (by decide))
    unfold parse_settings
    rw [pySplit_two_words hw1 hw2 (by simp [lit]) (by simp [lit])]
    rw [settings_size_step ds1 _ _ _ _ hd1 hne1 hv1,
      settings_size_step ds2 _ _ _ _ hd2 hne2 hv2]
    rfl

end WebVTTCueTimingsAndSettingsParser

namespace WebVTTCueTimingsAndSettingsParser

theorem C10_amended_duplicate_setting_last_wins_witness :
    parse_settings (lit "align:left align:right") {} =
      .ok (["Duplicate setting."], { ({} : Cue) with alignment := lit "right" }) ∧
    parse_settings (lit "position:45% position:46%") {} =
      .ok (["Duplicate setting."], { ({} : Cue) with text_position := .num ((46 : ℚ)) }) := by
  constructor
  · exact C10_amended_duplicate_setting_last_wins.1 {} (lit "left") (lit "right")
      (by decide) (by decide)
  · exact C10_amended_duplicate_setting_last_wins.2.2.1 {} (lit "45") (lit "46")
      (by decide) (by decide) (by decide) (by decide) (by decide) (by decide)

end WebVTTCueTimingsAndSettingsParser

namespace WebVTTCueTextParser

theorem escBodyChar_facts {c : Char} (h : escBodyChar c = true) :
    c ≠ '<' ∧ c ≠ '&' ∧ c ≠ ';' := by
  refine ⟨?_, ?_, ?_⟩ <;> (rintro rfl; exact absurd h (by decide))

/-- While the next character is an escape-body character, the escape state
just accumulates it into the buffer. -/
theorem next_token_escape_walk (ents : List (Str × Str)) (mode : Str) (bs : Str)
    (hbs : ∀ c ∈ bs, escBodyChar c = true) :
    ∀ result buffer classes rest,
      next_token ents mode .escape result buffer classes (bs ++ rest) =
        next_token ents mode .escape result (buffer ++ bs) classes rest := by
  induction bs with
  | nil => intro result buffer classes rest; simp
  | cons c t ih =>
    intro result buffer classes rest
    have hc := hbs c (by simp)
    have hf := escBodyChar_facts hc
    rw [List.cons_append, next_token]
    rw [if_neg hf.1, if_neg hf.2.1, if_pos hc]
    rw [ih (fun x hx => hbs x (by simp [hx])) result (buffer ++ [c]) classes rest]
    simp

/-- C4 counterexample: with the (caller-injectable) entity map
`{'&a': 'X', '&ab': 'Y'}`, the escape `&ab;` resolves through the *first*
key in map order (`&a`, yielding `Xb;`), not through the longest prefix
key (`&ab`, which the spec's rule would pick, yielding `Y;`). -/
theorem C4_escape_prefix_not_longest :
    next_token [(lit "&a", lit "X"), (lit "&ab", lit "Y")] [] .data [] [] [] (lit "&ab;") =
      .ok ([], .text (lit "Xb;"), []) ∧
    specLongestPrefixKey [(lit "&a", lit "X"), (lit "&ab", lit "Y")] (lit "&ab") =
      some (lit "&ab") ∧
    lit "Xb;" ≠
      entLookup [(lit "&a", lit "X"), (lit "&ab", lit "Y")] (lit "&ab") ++ [';'] := by
  refine ⟨rfl, rfl, by decide⟩

/-- C4 amended: in the escape state, on `;` the buffered candidate
`'&' :: bs` is resolved in this order: numeric character reference
(`&#NNN` or `&#xHEX`, hex digits restricted to `0-9`), then exact
entity-map lookup of the buffer *plus* `';'`, then the *first* entity-map
key in map (insertion) order that is a prefix of the buffer - the residual
characters and the `';'` are appended literally - else an error is
reported and the literal buffer plus `;` is emitted unchanged. Stated for
the default mode over a whole `next_token` run on `&<body>;`. -/
theorem C4_amended_escape_resolution_order (ents : List (Str × Str)) (bs : Str)
    (hbs : ∀ c ∈ bs, escBodyChar c = true) :
    next_token ents [] .data [] [] [] ('&' :: (bs ++ [';'])) =
      (match numRefX ('&' :: bs) with
      | some (hex, ds) =>
        (match from_char_code (if hex then hexVal ds
            else WebVTTCueTimingsAndSettingsParser.digitsVal ds) with
        | .ok ch => .ok ([], .text [ch], [])
        | .error e => .error e)
      | none =>
        if entLookup ents (('&' :: bs) ++ [';']) ≠ [] then
          .ok ([], .text (entLookup ents (('&' :: bs) ++ [';'])), [])
        else
          match prefixKeys ents ('&' :: bs) with
          | k :: _ =>
            .ok ([], .text (entLookup ents k ++ ('&' :: bs).drop k.length ++ [';']), [])
          | [] => .ok (["Incorrect escape."], .text (('&' :: bs) ++ [';']), [])) := by
  rw [next_token]
  rw [if_pos rfl]
  rw [next_token_escape_walk ents [] bs hbs [] ['&'] [] [';']]
  rw [next_token]
  rw [if_neg (by decide : ¬ (';' = '<')), if_neg (by decide : ¬ (';' = '&'))]
  rw [if_neg (by decide : ¬ (escBodyChar ';' = true)), if_pos rfl]
  cases hnum : numRefX ('&' :: bs) with
  | some p =>
    cases p with
    | mk hex ds =>
      cases hfc : from_char_code (if hex then hexVal ds
          else WebVTTCueTimingsAndSettingsParser.digitsVal ds) with
      | ok ch => simp [resolveSemi, hnum, hfc, next_token, Except.map]
      | error e => simp [resolveSemi, hnum, hfc]
  | none =>
    by_cases hex : entLookup ents (('&' :: bs) ++ [';']) ≠ []
    · simp only [List.cons_append] at hex
      simp [resolveSemi, hnum, hex, next_token, Except.map]
    · simp only [List.cons_append] at hex
      cases hpk : prefixKeys ents ('&' :: bs) with
      | nil =>
        simp [resolveSemi, hnum, hex, hpk, next_token, Except.map, ctErrs]
        decide
      | cons k ks => simp [resolveSemi, hnum, hex, hpk, next_token, Except.map]

end WebVTTCueTextParser

namespace WebVTTCueTextParser

/-- Witness for the amended C4 at the concrete escapes `&amp;` (first
prefix key `&amp`, residual `;` appended, yielding `&;`) and the numeric
reference `&#65;`. -/
theorem C4_amended_escape_resolution_order_witness :
    next_token defaultEntities [] .data [] [] [] (lit "&amp;") =
      .ok ([], .text (lit "&;"), []) ∧
    next_token defaultEntities [] .data [] [] [] (lit "&#65;") =
      .ok ([], .text (lit "A"), []) := by
  constructor
  · have h := C4_amended_escape_resolution_order defaultEntities (lit "amp") (by decide)
    rw [show ('&' :: (lit "amp" ++ [';'])) = lit "&amp;" from rfl] at h
    rw [h]
    rfl
  · have h := C4_amended_escape_resolution_order defaultEntities (lit "#65") (by decide)
    rw [show ('&' :: (lit "#65" ++ [';'])) = lit "&#65;" from rfl] at h
    rw [h]
    rfl

end WebVTTCueTextParser

namespace WebVTTParser

/-- C1 (code bug): the spec says `parse` never raises and communicates all
malformed input through the returned error list, but the code raises host
exceptions on reachable inputs: IndexError at `line[0]` when the first
line is empty, KeyError at `lines[line_pos]` when the bad-cue recovery
loop runs past the last line, and TypeError in the `line` setting branch
(`value.find('-', start=1)`). -/
theorem C1_parse_raises_on_malformed_input :
    parse [] (lit "") (lit "") = .error .indexError ∧
    parse [] (lit "WEBVTT\n\na --> b") (lit "") = .error .keyError ∧
    parse [] (lit "WEBVTT\n\n00:00:00.000 --> 00:00:01.000 line:5\nx") (lit "") =
      .error .typeError :=
  ⟨rfl, rfl, rfl⟩

/-- C5 counterexample: in the header scan, the line containing `-->` *does*
receive a header diagnostic (`No blank line after the signature.` at line
2) before the loop stops and hands the line to cue parsing - the claim
says no header diagnostic is emitted for that line. -/
theorem C5_header_sep_line_gets_diagnostic :
    parse [] (lit "WEBVTT\nX --> Y\nhello\n") (lit "") =
      .ok [⟨2, "No blank line after the signature."⟩,
           ⟨2, "Timestamp must start with a character in the range 0-9."⟩] :=
  rfl

end WebVTTParser

namespace WebVTTParser

theorem C5_amended_header_scan :
    (∀ pos hd rest errs, (∀ l ∈ hd, l ≠ [] ∧ pyHasSub l (lit "-->") = false) →
      headerScan pos (hd ++ [] :: rest) errs =
        (errs ++ (List.range hd.length).map
          (fun i => ⟨pos + i, "No blank line after the signature."⟩),
         pos + hd.length, [] :: rest, false)) ∧
    (∀ pos hd t rest errs, (∀ l ∈ hd, l ≠ [] ∧ pyHasSub l (lit "-->") = false) →
      pyHasSub t (lit "-->") = true →
      headerScan pos (hd ++ t :: rest) errs =
        (errs ++ (List.range (hd.length + 1)).map
          (fun i => ⟨pos + i, "No blank line after the signature."⟩),
         pos + hd.length, t :: rest, true)) := by
  constructor
  · intro pos hd
    induction hd generalizing pos with
    | nil => intro rest errs _; simp [headerScan]
    | cons l hd ih =>
      intro rest errs hh
      have hl := hh l (by simp)
      rw [List.cons_append, headerScan, if_neg hl.1, hl.2]
      simp only [Bool.false_eq_true, if_false]
      rw [ih (pos + 1) rest (errs ++ [({ line := pos, message := "No blank line after the signature." } : VttError)])
        (fun x hx => hh x (by simp [hx]))]
      simp only [List.length_cons, List.range_succ_eq_map, List.map_cons, List.map_map,
        List.append_assoc, List.cons_append, List.nil_append, Bool.false_eq_true, if_false]
      simp only [Prod.mk.injEq]
      refine ⟨?_, by omega, trivial⟩
      congr 1
      congr 1 <;> (simp; try (intro a ha; omega))
  · intro pos hd
    induction hd generalizing pos with
    | nil =>
      intro t rest errs _ ht
      have htne : t ≠ [] := by
        intro h
        subst h
        exact absurd ht (by decide)
      rw [List.nil_append, headerScan, if_neg htne, ht]
      simp [List.range_succ]
    | cons l hd ih =>
      intro t rest errs hh ht
      have hl := hh l (by simp)
      rw [List.cons_append, headerScan, if_neg hl.1, hl.2]
      simp only [Bool.false_eq_true, if_false]
      rw [ih (pos + 1) t rest (errs ++ [({ line := pos, message := "No blank line after the signature." } : VttError)])
        (fun x hx => hh x (by simp [hx])) ht]
      simp only [List.length_cons, List.range_succ_eq_map, List.map_cons, List.map_map,
        List.append_assoc, List.cons_append, List.nil_append, Bool.false_eq_true, if_false]
      simp only [Prod.mk.injEq]
      refine ⟨?_, by omega, trivial⟩
      congr 1
      congr 1 <;> (simp; try (intro a ha; omega))

end WebVTTParser

namespace WebVTTParser

/-- Witness for the amended C5: one plain header line then a `-->` line;
both get a diagnostic and the scan stops at the `-->` line with
`already_collected` set. -/
theorem C5_amended_header_scan_witness :
    headerScan 2 [lit "a", lit "x --> y", lit "rest"] [] =
      ([⟨2, "No blank line after the signature."⟩, ⟨3, "No blank line after the signature."⟩],
       3, [lit "x --> y", lit "rest"], true) := by
  have h := C5_amended_header_scan.2 2 [lit "a"] (lit "x --> y") [lit "rest"] []
    (by intro l hl; simp at hl; subst hl; exact ⟨by decide, by decide⟩) (by decide)
  rw [show ([lit "a"] ++ lit "x --> y" :: [lit "rest"]) =
    [lit "a", lit "x --> y", lit "rest"] from rfl] at h
  rw [h]
  decide

end WebVTTParser

namespace WebVTTParser

/-- C6 counterexample: two documents with identical caller-visible results
(`parse` returns `.ok []` for both) but internal cue lists of different
lengths - the cue list is therefore not recoverable from anything the
`parse` call returns to the caller. -/
theorem C6_cue_list_not_retrievable :
    parse [] (lit "WEBVTT") (lit "") =
      parse [] (lit "WEBVTT\n\n00:00:00.000 --> 00:00:01.000\nhi") (lit "") ∧
    (parseCues [] (lit "WEBVTT") (lit "")).map List.length = .ok 0 ∧
    (parseCues [] (lit "WEBVTT\n\n00:00:00.000 --> 00:00:01.000\nhi") (lit "")).map
      List.length = .ok 1 := by
  refine ⟨?_, rfl, rfl⟩
  have hA : parse [] (lit "WEBVTT") (lit "") = .ok [] := rfl
  have hB : parse [] (lit "WEBVTT\n\n00:00:00.000 --> 00:00:01.000\nhi") (lit "") = .ok [] := rfl
  exact hA.trans hB.symm

/-- C6 amended: `parse` returns only the error list; the ordered cue list
- one entry per successfully-timed cue block, in source order, each
carrying its populated markup tree - is built internally by the same run
but never exposed to the caller. The second and third conjuncts exhibit
the internal list and the caller-visible result for the valid two-cue
document of the repository's test suite. -/
theorem C6_amended_internal_cue_list :
    (∀ ents doc mode, parse ents doc mode = (parseRun ents doc mode).map Prod.fst) ∧
    parseCues [] goodVttData (lit "") =
      .ok [{ id := lit "1", start_time := 1/2, end_time := 2,
             text := lit "<c.yellow.bg_blue>This is yellow text on a blue background</c>",
             tree := some [Node.object (lit "c") [lit "yellow", lit "bg_blue"] none
               [Node.text (lit "This is yellow text on a blue background")]] },
           { id := lit "2", start_time := 5/2, end_time := 43/10,
             text := lit "and the way we access it is changing stuff position:45%,line-right align:center size:35%",
             tree := some [Node.text
               (lit "and the way we access it is changing stuff position:45%,line-right align:center size:35%")] }] ∧
    parse [] goodVttData (lit "") = .ok [] := by
  refine ⟨fun ents doc mode => rfl, ?_, rfl⟩
  rfl

end WebVTTParser

namespace WebVTTCueTextParser

theorem ctErrs_mode_eq {mode : Str} (h : mode ≠ lit "metadata") :
    ctErrs mode = ctErrs (lit "") := by
  funext msg
  simp [ctErrs, h, show ¬ (lit "" = lit "metadata") by decide]

theorem ctFilter_mode_eq {mode : Str} (h : mode ≠ lit "metadata") :
    ctFilter mode = ctFilter (lit "") := by
  funext msgs
  simp [ctFilter, h, show ¬ (lit "" = lit "metadata") by decide]

theorem resolveSemi_mode_eq {mode : Str} (h : mode ≠ lit "metadata") (ents : List (Str × Str)) :
    resolveSemi ents mode = resolveSemi ents (lit "") := by
  funext buffer
  simp only [resolveSemi, ctErrs_mode_eq h]

theorem next_token_mode_eq {mode : Str} (h : mode ≠ lit "metadata") (ents : List (Str × Str)) :
    ∀ (rem : Str) (state : TokState) (result buffer : Str) (classes : List Str),
      next_token ents mode state result buffer classes rem =
        next_token ents (lit "") state result buffer classes rem := by
  intro rem
  induction rem with
  | nil =>
    intro state result buffer classes
    cases state <;> simp only [next_token, ctErrs_mode_eq h]
  | cons c t ih =>
    intro state result buffer classes
    cases state <;>
      simp only [next_token, ctErrs_mode_eq h, ctFilter_mode_eq h, resolveSemi_mode_eq h, ih]

end WebVTTCueTextParser

namespace WebVTTCueTextParser

theorem closeOpenAux_mode_eq {mode : Str} (h : mode ≠ lit "metadata") :
    ∀ (t : List OpenNode) (hd : OpenNode) (root : List Node) (errs : List String),
      closeOpenAux mode hd t root errs = closeOpenAux (lit "") hd t root errs := by
  intro t
  induction t with
  | nil => intro hd root errs; simp only [closeOpenAux, ctErrs_mode_eq h]
  | cons h2 t2 ih =>
    intro hd root errs
    simp only [closeOpenAux, ctErrs_mode_eq h, ih]

theorem closeOpen_mode_eq {mode : Str} (h : mode ≠ lit "metadata") :
    ∀ (stack : List OpenNode) (root : List Node) (errs : List String),
      closeOpen mode stack root errs = closeOpen (lit "") stack root errs := by
  intro stack root errs
  cases stack with
  | nil => rfl
  | cons hd t => simp only [closeOpen, closeOpenAux_mode_eq h]

theorem parseLoop_mode_eq {mode : Str} (h : mode ≠ lit "metadata") (h2 : mode ≠ lit "chapters")
    (ents : List (Str × Str)) (cue_start cue_end : ℚ) :
    ∀ (fuel : Nat) (rem : Str) (stack : List OpenNode) (root : List Node)
      (tss : List ℚ) (errs : List String),
      parseLoop ents mode cue_start cue_end fuel rem stack root tss errs =
        parseLoop ents (lit "") cue_start cue_end fuel rem stack root tss errs := by
  intro fuel
  induction fuel with
  | zero => intro rem stack root tss errs; simp only [parseLoop, closeOpen_mode_eq h]
  | succ fuel ih =>
    intro rem stack root tss errs
    cases rem with
    | nil => simp only [parseLoop, closeOpen_mode_eq h]
    | cons c rem0 =>
      simp only [parseLoop, next_token_mode_eq h, ctErrs_mode_eq h, ctFilter_mode_eq h, ih,
        if_neg h2, if_neg (show ¬ (lit "" = lit "chapters") by decide)]

theorem ctparse_mode_eq {mode : Str} (h : mode ≠ lit "metadata") (h2 : mode ≠ lit "chapters")
    (ents : List (Str × Str)) (text : Str) (cue_start cue_end : ℚ) :
    parse ents mode text cue_start cue_end = parse ents (lit "") text cue_start cue_end := by
  simp only [parse, parseLoop_mode_eq h h2]

end WebVTTCueTextParser

namespace WebVTTParser

theorem cueBody_mode_eq {mode : Str} (h : mode ≠ lit "metadata") (h2 : mode ≠ lit "chapters")
    (ents : List (Str × Str)) (pos : Nat) (line : Str) (rest : List Str) (cue0 : Cue)
    (errs : List VttError) (cues : List Cue)
    (k1 k2 : Nat → List Str → Bool → List VttError → List Cue →
      Except PyErr (List VttError × List Cue)) (hk : k1 = k2) :
    cueBody ents mode pos line rest cue0 errs cues k1 =
      cueBody ents (lit "") pos line rest cue0 errs cues k2 := by
  simp only [cueBody, WebVTTCueTextParser.ctparse_mode_eq h h2, hk]

theorem cueLoop_mode_eq {mode : Str} (h : mode ≠ lit "metadata") (h2 : mode ≠ lit "chapters")
    (ents : List (Str × Str)) :
    ∀ (fuel : Nat) (pos : Nat) (rem : List Str) (ac : Bool) (errs : List VttError)
      (cues : List Cue),
      cueLoop ents mode fuel pos rem ac errs cues =
        cueLoop ents (lit "") fuel pos rem ac errs cues := by
  intro fuel
  induction fuel with
  | zero => intro pos rem ac errs cues; rfl
  | succ fuel ih =>
    intro pos rem ac errs cues
    have hk : cueLoop ents mode fuel = cueLoop ents (lit "") fuel := by
      funext a b c d e; exact ih a b c d e
    cases rem with
    | nil => rfl
    | cons l0 rest0 =>
      simp only [cueLoop, ih, cueBody_mode_eq h h2 ents _ _ _ _ _ _ _ _ hk]

theorem parseRun_mode_eq {mode : Str} (h : mode ≠ lit "metadata") (h2 : mode ≠ lit "chapters")
    (entities : List (Str × Str)) (input_vtt : Str) :
    parseRun entities input_vtt mode = parseRun entities input_vtt (lit "") := by
  simp only [parseRun, parseLines, cueLoop_mode_eq h h2]

end WebVTTParser

namespace WebVTTParser

/-- C9: for every document and every mode other than `metadata` and
`chapters` (including arbitrary unrecognized modes), `parse` produces
exactly the same error list - and the parse run builds exactly the same
cue records - as a call with the empty mode: unrecognized modes are not
rejected at the boundary and are indistinguishable from the full rule
set. -/
theorem C9_unrecognized_mode_same_as_default (entities : List (Str × Str)) (input_vtt : Str)
    (mode : Str) (h : mode ≠ lit "metadata") (h2 : mode ≠ lit "chapters") :
    parse entities input_vtt mode = parse entities input_vtt (lit "") ∧
    parseRun entities input_vtt mode = parseRun entities input_vtt (lit "") := by
  refine ⟨?_, parseRun_mode_eq h h2 entities input_vtt⟩
  simp only [parse, parseRun_mode_eq h h2]

/-- Witness for C9 at a concrete document and the unrecognized mode
`zebra`. -/
theorem C9_unrecognized_mode_same_as_default_witness :
    parse [] goodVttData (lit "zebra") = parse [] goodVttData (lit "") ∧
    parseRun [] goodVttData (lit "zebra") = parseRun [] goodVttData (lit "") :=
  C9_unrecognized_mode_same_as_default [] goodVttData (lit "zebra") (by decide) (by decide)

end WebVTTParser

namespace WebVTTCueTimingsAndSettingsParser

theorem timings_order_insert (line : Str) (cue : Cue) (st : ℚ)
    (h : (timestamp (skipChars SPACE line)).2.1 = some st) (prev : ℚ) :
    timings_parse line cue prev =
      (timings_parse line cue st).map (fun r =>
        (r.1.take (timestamp (skipChars SPACE line)).1.length ++
         (if st < prev then
           ["Start timestamp is not greater than or equal to start timestamp of previous cue."]
         else []) ++
         r.1.drop (timestamp (skipChars SPACE line)).1.length, r.2)) := by
  rcases ht : timestamp (skipChars SPACE line) with ⟨msgs0, o, r1⟩
  rw [ht] at h
  obtain rfl : o = some st := h
  simp only [timings_parse, ht]
  split
  next r2 heq =>
    rcases ht2 : timestamp (skipChars SPACE r2) with ⟨m2, o2, r3⟩
    simp only [ht2]
    cases o2 with
    | none =>
      simp only [Except.map, lt_self_iff_false, if_false, List.append_assoc,
        List.take_left, List.drop_left, List.nil_append]
    | some et =>
      split
      next hps => simp at hps
      next et2 hps =>
        obtain rfl : et = et2 := by injection hps
        split
        next e hps2 => simp only [Except.map]
        next serrs cue3 hps2 =>
          simp only [Except.map, lt_self_iff_false, if_false, List.append_assoc,
            List.take_left, List.drop_left, List.nil_append]
  next hne =>
    simp only [Except.map, lt_self_iff_false, if_false, List.append_assoc,
      List.take_left, List.drop_left, List.nil_append]

end WebVTTCueTimingsAndSettingsParser

namespace WebVTTParser

open WebVTTCueTimingsAndSettingsParser

/-- C7: (i) for a timing line whose start timestamp parses to `st`, the
value of `previous_cue_start` affects the timings parse ONLY by inserting
the start-order error message (right after the start-timestamp messages)
exactly when `st < previous_cue_start` - success, cue fields and all other
messages are unchanged, so the violation is reported but not fatal;
(ii) a successfully-timed cue block is appended at the END of the cue
list, whose last element is also what `previous_cue_start` is read from -
cues therefore stay in source order and are never re-sorted; and (iii) a
concrete two-cue document whose second start lies before the first start
yields exactly the start-order error while both cues appear in the
internal list in source order. -/
theorem C7_out_of_order_start_reported_not_resorted :
    (∀ (line : Str) (cue : Cue) (st : ℚ),
      (timestamp (skipChars SPACE line)).2.1 = some st →
      ∀ prev : ℚ,
        timings_parse line cue prev =
          (timings_parse line cue st).map (fun r =>
            (r.1.take (timestamp (skipChars SPACE line)).1.length ++
             (if st < prev then
               ["Start timestamp is not greater than or equal to start timestamp of previous cue."]
             else []) ++
             r.1.drop (timestamp (skipChars SPACE line)).1.length, r.2))) ∧
    (∀ (ents : List (Str × Str)) (mode : Str) (pos : Nat) (line : Str) (rest : List Str)
      (cue0 : Cue) (errs : List VttError) (cues : List Cue)
      (k : Nat → List Str → Bool → List VttError → List Cue →
        Except PyErr (List VttError × List Cue))
      (tm : List String) (c1 : Cue) (e2 : List VttError) (p2 : Nat) (r2 : List Str)
      (a2 : Bool) (text : Str) (cm : List String) (tree : List Node),
      timings_parse line cue0
          (match cues.getLast? with | some c => c.start_time | none => 0) =
        .ok (tm, true, c1) →
      cueTextCollect (pos + 1) rest [] (errs ++ tm.map (fun m => ⟨pos, m⟩)) =
        (e2, p2, r2, a2, text) →
      WebVTTCueTextParser.parse ents mode text c1.start_time c1.end_time = .ok (cm, tree) →
      cueBody ents mode pos line rest cue0 errs cues k =
        k p2 r2 a2 (e2 ++ cm.map (fun m => ⟨p2, m⟩))
          (cues ++ [{ c1 with text := text, tree := some tree }])) ∧
    parseRun [] (lit "WEBVTT\n\n00:00:13.000 --> 00:00:16.500\nx\n\n00:00:05.500 --> 00:00:06.300\ny")
        (lit "") =
      .ok ([⟨6, "Start timestamp is not greater than or equal to start timestamp of previous cue."⟩],
        [{ start_time := 13, end_time := 33/2, text := lit "x",
           tree := some [Node.text (lit "x")] },
         { start_time := 11/2, end_time := 63/10, text := lit "y",
           tree := some [Node.text (lit "y")] }]) := by
  refine ⟨timings_order_insert, ?_, rfl⟩
  intro ents mode pos line rest cue0 errs cues k tm c1 e2 p2 r2 a2 text cm tree h1 h2 h3
  simp only [cueBody, h1, h2, h3, if_true]

end WebVTTParser

namespace WebVTTParser

open WebVTTCueTimingsAndSettingsParser

/-- Witness for C7: the insertion form at the second timing line of the
concrete document (previous start 13, own start 11/2), and the cue-append
form at the same block with one cue already collected. -/
theorem C7_out_of_order_start_reported_not_resorted_witness :
    ((timestamp (skipChars SPACE (lit "00:00:05.500 --> 00:00:06.300"))).2.1 =
      some (11/2 : ℚ)) ∧
    timings_parse (lit "00:00:05.500 --> 00:00:06.300") {} 13 =
      (timings_parse (lit "00:00:05.500 --> 00:00:06.300") {} (11/2)).map (fun r =>
        (r.1.take (timestamp (skipChars SPACE (lit "00:00:05.500 --> 00:00:06.300"))).1.length ++
         (if (11/2 : ℚ) < 13 then
           ["Start timestamp is not greater than or equal to start timestamp of previous cue."]
         else []) ++
         r.1.drop (timestamp (skipChars SPACE (lit "00:00:05.500 --> 00:00:06.300"))).1.length,
         r.2)) ∧
    cueBody [] (lit "") 6 (lit "00:00:05.500 --> 00:00:06.300") [lit "y"]
        {} []
        [{ start_time := 13, end_time := 33/2, text := lit "x",
           tree := some [Node.text (lit "x")] }]
        (fun _p _r _a e c => .ok (e, c)) =
      .ok ([⟨6, "Start timestamp is not greater than or equal to start timestamp of previous cue."⟩],
        [{ start_time := 13, end_time := 33/2, text := lit "x",
           tree := some [Node.text (lit "x")] },
         { start_time := 11/2, end_time := 63/10, text := lit "y",
           tree := some [Node.text (lit "y")] }]) :=
  ⟨rfl,
   C7_out_of_order_start_reported_not_resorted.1
     (lit "00:00:05.500 --> 00:00:06.300") {} (11/2) (by decide) 13,
   (C7_out_of_order_start_reported_not_resorted.2.1 [] (lit "") 6
     (lit "00:00:05.500 --> 00:00:06.300") [lit "y"] {} []
     [{ start_time := 13, end_time := 33/2, text := lit "x",
        tree := some [Node.text (lit "x")] }]
     (fun _p _r _a e c => .ok (e, c))
     ["Start timestamp is not greater than or equal to start timestamp of previous cue."]
     { start_time := 11/2, end_time := 63/10 }
     [⟨6, "Start timestamp is not greater than or equal to start timestamp of previous cue."⟩]
     8 [] false (lit "y") [] [Node.text (lit "y")]
     rfl rfl rfl).trans rfl⟩

end WebVTTParser
